import Mathlib

/-!
Verification of the blogster publish/persistence core against its
natural-language specification.  Rust strings are embedded as lists of
characters; machine integers as `Nat`/`Int`; fallible operations as
`Except`; the network and clock as explicit parameters; observable side
effects (HTTP calls, relay traffic, log warnings) as explicit effect
traces returned alongside each result.
-/

namespace Blogster

/-- Rust `String` / `&str`, embedded as a list of characters. -/
abbrev Str := List Char

/-- Coerce a Lean string literal to the `Str` embedding. -/
def str (s : String) : Str := s.data

/-- Rust `char::is_whitespace` (the Unicode `White_Space` property). -/
def isRustWhitespace (c : Char) : Bool :=
  (0x9 ≤ c.val && c.val ≤ 0xD) || c.val = 0x20 || c.val = 0x85 || c.val = 0xA0 ||
  c.val = 0x1680 || (0x2000 ≤ c.val && c.val ≤ 0x200A) ||
  c.val = 0x2028 || c.val = 0x2029 || c.val = 0x202F || c.val = 0x205F || c.val = 0x3000

/-- Drop matching characters from the end of a list (`trim_end`-style). -/
def dropEndWhile (p : Char → Bool) (l : Str) : Str :=
  (l.reverse.dropWhile p).reverse

/-- Rust `str::trim`: strip whitespace from both ends. -/
def rustTrim (s : Str) : Str :=
  dropEndWhile isRustWhitespace (s.dropWhile isRustWhitespace)

/-- Rust `str::trim_matches('"')`: strip double quotes from both ends. -/
def trimQuotes (s : Str) : Str :=
  dropEndWhile (fun c => c = '"') (s.dropWhile (fun c => c = '"'))

/-- Split a list at every occurrence of the character `c` (like Rust
`str::split(c)`); always returns at least one piece. -/
def splitChar (c : Char) : Str → List Str
  | [] => [[]]
  | x :: xs =>
    let r := splitChar c xs
    if x = c then [] :: r
    else
      match r with
      | [] => [[x]]
      | y :: ys => (x :: y) :: ys

/-- Strip one trailing carriage return, as Rust `str::lines` does per line. -/
def stripCr (s : Str) : Str :=
  if s.getLast? = some '\r' then s.dropLast else s

/-- Rust `str::lines`: split on newline characters, drop a final empty
piece, and strip one trailing `'\r'` from each line. -/
def rustLines (s : Str) : List Str :=
  let ps := splitChar '\n' s
  let ps := if ps.getLast? = some [] then ps.dropLast else ps
  ps.map stripCr

/-- Rust `str::split_once(c)`: split at the first occurrence of `c`. -/
def splitOnceChar (c : Char) : Str → Option (Str × Str)
  | [] => none
  | x :: xs =>
    if x = c then some ([], xs)
    else (splitOnceChar c xs).map (fun p => (x :: p.1, p.2))

/-- Rust `str::find(pat)`: index of the first occurrence of `pat`. -/
def findSub (pat : Str) (s : Str) : Option Nat :=
  if pat.isPrefixOf s then some 0
  else
    match s with
    | [] => none
    | _ :: t => (findSub pat t).map (· + 1)

/-- Rust `str::replace('"', "\\\"")` as used for frontmatter values. -/
def escapeQuotes (s : Str) : Str :=
  s.flatMap (fun c => if c = '"' then ['\\', '"'] else [c])

/-- The decimal digit character for `n < 10`. -/
def digitChar (n : Nat) : Char := Char.ofNat (48 + n)

/-- Digit rendering worker; the fuel always suffices because the
number shrinks by a factor of ten per step. -/
def natDigitsAux : Nat → Nat → Str
  | 0, _ => []
  | fuel + 1, n =>
    if n < 10 then [digitChar n]
    else natDigitsAux fuel (n / 10) ++ [digitChar (n % 10)]

/-- Decimal digits of a natural number, most significant first
(Rust `u64`/`usize` `Display`). -/
def natDigits (n : Nat) : Str := natDigitsAux (n + 1) n

/-- Rust `i64::Display` (as used by `timestamp().to_string()`). -/
def intToStr (i : Int) : Str :=
  if i < 0 then '-' :: natDigits (-i).toNat else natDigits i.toNat

/-- Two-digit zero-padded decimal field. -/
def pad2 (n : Nat) : Str :=
  if n < 10 then '0' :: natDigits n else natDigits n

/-- Four-digit zero-padded year field. -/
def pad4 (n : Nat) : Str :=
  if n < 10 then str "000" ++ natDigits n
  else if n < 100 then str "00" ++ natDigits n
  else if n < 1000 then '0' :: natDigits n
  else natDigits n

/-- Proleptic-Gregorian civil date from a day count since 1970-01-01
(the standard era-based conversion used by calendar libraries). -/
def civilFromDays (z0 : Int) : Int × Nat × Nat :=
  let z := z0 + 719468
  let era : Int := Int.fdiv z 146097
  let doe : Nat := (Int.fmod z 146097).toNat
  let yoe : Nat := (doe - doe / 1460 + doe / 36524 - doe / 146096) / 365
  let y : Int := (yoe : Int) + era * 400
  let doy : Nat := doe - (365 * yoe + yoe / 4 - yoe / 100)
  let mp : Nat := (5 * doy + 2) / 153
  let d : Nat := doy - (153 * mp + 2) / 5 + 1
  let m : Nat := if mp < 10 then mp + 3 else mp - 9
  (if mp < 10 then y else y + 1, m, d)

/-- Year rendering for RFC 3339 (zero-padded to four digits; a leading
minus sign for negative years). -/
def yearStr (y : Int) : Str :=
  if y < 0 then '-' :: pad4 (-y).toNat else pad4 y.toNat

/-- `chrono::DateTime<Utc>::to_rfc3339` at whole-second precision:
the timestamps this program stores carry whole seconds, rendered as
`YYYY-MM-DDTHH:MM:SS+00:00`.  Only the fact that the output contains
no newline or double quote matters to the claims below. -/
def rfc3339OfUnix (t : Int) : Str :=
  let days := Int.fdiv t 86400
  let secs := (Int.fmod t 86400).toNat
  let c := civilFromDays days
  yearStr c.1 ++ '-' :: pad2 c.2.1 ++ '-' :: pad2 c.2.2 ++
    'T' :: pad2 (secs / 3600) ++ ':' :: pad2 (secs % 3600 / 60) ++
    ':' :: pad2 (secs % 60) ++ str "+00:00"

/-- Lowercase hexadecimal digit character for `n < 16`. -/
def hexDigit (n : Nat) : Char :=
  if n < 10 then digitChar n else Char.ofNat (87 + n)

/-- Is `c` a lowercase hexadecimal digit? -/
def isHexLower (c : Char) : Bool :=
  ('0' ≤ c && c ≤ '9') || ('a' ≤ c && c ≤ 'f')

/-- Canonical hyphenated lowercase UUID text
(`xxxxxxxx-xxxx-xxxx-xxxx-xxxxxxxxxxxx`), the format `Uuid`'s
`Display` emits. -/
def isCanonicalUuid (s : Str) : Bool :=
  s.length = 36 &&
    (List.range 36).all (fun i =>
      let c := s.getD i ' '
      if i = 8 || i = 13 || i = 18 || i = 23 then c = '-' else isHexLower c)

/-- `Uuid::parse_str`, modelled on the canonical hyphenated form that
this program ever feeds it (the serializer emits exactly that form);
the identifier is kept in its text representation. -/
def uuidParseStr (s : Str) : Option Str :=
  if isCanonicalUuid s then some s else none

/-! ## The post data model (`src/post.rs`) -/

/-- `PostStatus` from `src/post.rs`. -/
inductive PostStatus
  | Draft
  | Published
  | Failed
  deriving DecidableEq, Repr

/-- The `{:?}` (Debug) rendering of a `PostStatus`. -/
def statusDebug : PostStatus → Str
  | .Draft => str "Draft"
  | .Published => str "Published"
  | .Failed => str "Failed"

/-- `BlogPost` from `src/post.rs`.  The UUID is kept as its canonical
text, timestamps as unix seconds, the file path as text. -/
structure BlogPost where
  id : Str
  title : Str
  content : Str
  summary : Option Str
  tags : List Str
  image_url : Option Str
  created_at : Int
  updated_at : Int
  status : PostStatus
  nostr_event_id : Option Str
  published_relays : List Str
  file_path : Option Str
  deriving DecidableEq, Repr

/-- `BlogPost::default()`.  The freshly generated `Uuid::new_v4()` and
the `Utc::now()` reading are nondeterministic inputs, passed explicitly. -/
def defaultPost (freshId : Str) (now : Int) : BlogPost :=
  { id := freshId, title := [], content := [], summary := none, tags := [],
    image_url := none, created_at := now, updated_at := now,
    status := .Draft, nostr_event_id := none, published_relays := [],
    file_path := none }

/-- `BlogPost::is_ready_to_publish`. -/
def isReadyToPublish (p : BlogPost) : Bool :=
  !(rustTrim p.title).isEmpty && !(rustTrim p.content).isEmpty

/-- `BlogPost::to_markdown_with_frontmatter` (`src/post.rs:110-153`). -/
def toMarkdownWithFrontmatter (p : BlogPost) : Str :=
  str "---\n" ++
  (str "title: \"" ++ escapeQuotes p.title ++ str "\"\n") ++
  (str "id: \"" ++ p.id ++ str "\"\n") ++
  (str "created_at: \"" ++ rfc3339OfUnix p.created_at ++ str "\"\n") ++
  (str "updated_at: \"" ++ rfc3339OfUnix p.updated_at ++ str "\"\n") ++
  (str "status: \"" ++ statusDebug p.status ++ str "\"\n") ++
  (match p.summary with
   | some s => str "summary: \"" ++ escapeQuotes s ++ str "\"\n"
   | none => []) ++
  (if p.tags.isEmpty then []
   else str "tags:\n" ++
     (p.tags.map (fun t => str "  - \"" ++ escapeQuotes t ++ str "\"\n")).flatten) ++
  (match p.image_url with
   | some u => str "image: \"" ++ u ++ str "\"\n"
   | none => []) ++
  (match p.nostr_event_id with
   | some e => str "nostr_event_id: \"" ++ e ++ str "\"\n"
   | none => []) ++
  (if p.published_relays.isEmpty then []
   else str "published_relays:\n" ++
     (p.published_relays.map (fun r => str "  - \"" ++ r ++ str "\"\n")).flatten) ++
  str "---\n\n" ++
  p.content

/-- One iteration of the frontmatter-parsing loop in
`BlogPost::from_markdown_with_frontmatter` (`src/post.rs:168-193`). -/
def processLine (post : BlogPost) (line : Str) : BlogPost :=
  match splitOnceChar ':' line with
  | none => post
  | some kv =>
    let key := rustTrim kv.1
    let value := trimQuotes (rustTrim kv.2)
    if key = str "title" then { post with title := value }
    else if key = str "id" then
      match uuidParseStr value with
      | some u => { post with id := u }
      | none => post
    else if key = str "summary" then { post with summary := some value }
    else if key = str "image" then { post with image_url := some value }
    else if key = str "nostr_event_id" then { post with nostr_event_id := some value }
    else if key = str "status" then
      { post with status :=
          if value = str "Published" then .Published
          else if value = str "Failed" then .Failed
          else .Draft }
    else post

/-- `BlogPost::from_markdown_with_frontmatter` (`src/post.rs:156-205`).
The function's `BlogPost::default()` call draws a fresh UUID and the
current time; both are explicit parameters here.  The slicing arithmetic
(`content[4..]`, `end_pos + 4`, `end_pos + 8`) is reproduced verbatim in
character offsets, which agree with the Rust byte offsets because the
delimiters searched for are ASCII. -/
def fromMarkdownWithFrontmatter (content : Str) (filePath : Option Str)
    (freshId : Str) (now : Int) : Except Str BlogPost :=
  let post0 := { defaultPost freshId now with file_path := filePath }
  if (str "---\n").isPrefixOf content then
    match findSub (str "\n---\n") (content.drop 4) with
    | some endPos =>
      let frontmatter := (content.drop 4).take endPos
      let markdownContent := content.drop (endPos + 8)
      let post1 := { post0 with content := markdownContent }
      .ok ((rustLines frontmatter).foldl processLine post1)
    | none => .ok post0
  else
    let post1 := { post0 with content := content }
    .ok (match (rustLines content).find? (fun l => (str "# ").isPrefixOf l) with
         | some titleLine => { post1 with title := rustTrim (titleLine.drop 2) }
         | none => post1)

/-! ## Relay settings (`src/relay_settings.rs`) -/

/-- `RelaySettings` from `src/relay_settings.rs`. -/
structure RelaySettings where
  custom_relays : List Str
  use_default_relays : Bool
  use_custom_relays : Bool
  deriving DecidableEq, Repr

/-- `RelaySettings::default()`. -/
def defaultRelaySettings : RelaySettings :=
  { custom_relays := [], use_default_relays := true, use_custom_relays := false }

/-- `RelaySettings::get_default_relays`. -/
def getDefaultRelays : List Str :=
  [str "wss://relay.damus.io",
   str "wss://nos.lol",
   str "wss://relay.nostr.band",
   str "wss://nostr-pub.wellorder.net",
   str "wss://relay.snort.social"]

/-- Byte-lexicographic order on strings (Rust `String`'s `Ord`;
comparing Unicode scalar values agrees with comparing UTF-8 bytes). -/
def strLeB : Str → Str → Bool
  | [], _ => true
  | _ :: _, [] => false
  | a :: as, b :: bs =>
    if a.val < b.val then true
    else if b.val < a.val then false
    else strLeB as bs

/-- Insert into a sorted list, preserving order (helper for `Vec::sort`). -/
def insertStr (x : Str) : List Str → List Str
  | [] => [x]
  | y :: ys => if strLeB x y then x :: y :: ys else y :: insertStr x ys

/-- `Vec::<String>::sort()`: stable ascending sort by the total
byte-lexicographic order (insertion sort produces the same list). -/
def sortStr : List Str → List Str
  | [] => []
  | x :: xs => insertStr x (sortStr xs)

/-- `Vec::dedup()`: remove consecutive duplicates. -/
def rustDedup : List Str → List Str
  | [] => []
  | [x] => [x]
  | x :: y :: rest =>
    if x = y then rustDedup (y :: rest) else x :: rustDedup (y :: rest)

/-- `RelaySettings::get_active_relays` (`src/relay_settings.rs:37-60`). -/
def getActiveRelays (s : RelaySettings) : List Str :=
  let relays :=
    (if s.use_default_relays then getDefaultRelays else []) ++
    (if s.use_custom_relays then s.custom_relays else [])
  let relays := rustDedup (sortStr relays)
  if relays.isEmpty then getDefaultRelays else relays

/-- UTF-8 byte width of one Unicode scalar value (Rust `char::len_utf8`). -/
def utf8Width (c : Char) : Nat :=
  if c.toNat < 128 then 1
  else if c.toNat < 2048 then 2
  else if c.toNat < 65536 then 3
  else 4

/-- Rust `String::len()`: the UTF-8 byte length of the string, which is
the character count only on ASCII input. -/
def utf8Len (s : Str) : Nat := (s.map utf8Width).sum

/-- `RelaySettings::add_relay` (`src/relay_settings.rs:63-80`).  Returns
the updated settings on success; an error leaves the settings untouched.
The `relay_url.len() < 10` check counts UTF-8 bytes. -/
def addRelay (s : RelaySettings) (relayUrl : Str) : Except Str RelaySettings :=
  if !(str "wss://").isPrefixOf relayUrl && !(str "ws://").isPrefixOf relayUrl then
    .error (str "Relay URL must start with wss:// or ws://")
  else if utf8Len relayUrl < 10 then
    .error (str "Relay URL is too short")
  else if relayUrl ∈ s.custom_relays then
    .error (str "Relay already exists")
  else
    .ok { s with custom_relays := s.custom_relays ++ [relayUrl] }

/-- `RelaySettings::validate_relay_url` (`src/relay_settings.rs:93-108`).
The `url.len() < 10` check counts UTF-8 bytes. -/
def validateRelayUrl (url : Str) : Except Str Unit :=
  if !(str "wss://").isPrefixOf url && !(str "ws://").isPrefixOf url then
    .error (str "URL must start with wss:// or ws://")
  else if utf8Len url < 10 then
    .error (str "URL is too short")
  else if !url.contains '.' then
    .error (str "Invalid URL format")
  else
    .ok ()

/-! ## SHA-256 (the `sha2` crate's `Sha256`, computed over byte lists) -/

/-- Truncate to 32 bits. -/
def w32 (n : Nat) : Nat := n % 4294967296

/-- 32-bit right rotation (argument below `2^32`). -/
def rotr (k x : Nat) : Nat := w32 ((x >>> k) ||| (x <<< (32 - k)))

/-- SHA-256 round constants. -/
def sha256K : List Nat :=
  [1116352408, 1899447441, 3049323471, 3921009573, 961987163,
   1508970993, 2453635748, 2870763221, 3624381080, 310598401,
   607225278, 1426881987, 1925078388, 2162078206, 2614888103,
   3248222580, 3835390401, 4022224774, 264347078, 604807628,
   770255983, 1249150122, 1555081692, 1996064986, 2554220882,
   2821834349, 2952996808, 3210313671, 3336571891, 3584528711,
   113926993, 338241895, 666307205, 773529912, 1294757372,
   1396182291, 1695183700, 1986661051, 2177026350, 2456956037,
   2730485921, 2820302411, 3259730800, 3345764771, 3516065817,
   3600352804, 4094571909, 275423344, 430227734, 506948616,
   659060556, 883997877, 958139571, 1322822218, 1537002063,
   1747873779, 1955562222, 2024104815, 2227730452, 2361852424,
   2428436474, 2756734187, 3204031479, 3329325298]

/-- SHA-256 initial hash state. -/
def sha256H0 : List Nat :=
  [1779033703, 3144134277, 1013904242, 2773480762,
   1359893119, 2600822924, 528734635, 1541459225]

/-- Big-endian 8-byte rendering of a length in bits. -/
def be64 (n : Nat) : List Nat :=
  [n >>> 56 % 256, n >>> 48 % 256, n >>> 40 % 256, n >>> 32 % 256,
   n >>> 24 % 256, n >>> 16 % 256, n >>> 8 % 256, n % 256]

/-- Big-endian 4-byte rendering of a 32-bit word. -/
def be32 (n : Nat) : List Nat :=
  [n >>> 24 % 256, n >>> 16 % 256, n >>> 8 % 256, n % 256]

/-- SHA-256 message padding. -/
def padMsg (m : List Nat) : List Nat :=
  m ++ [0x80] ++ List.replicate ((64 + 55 - m.length % 64) % 64) 0 ++
    be64 (8 * m.length)

/-- Split into 64-byte blocks. -/
def chunks64 : List Nat → List (List Nat)
  | [] => []
  | x :: xs => (x :: xs).take 64 :: chunks64 (xs.drop 63)
  termination_by l => l.length
  decreasing_by
    rw [List.length_drop]
    simp only [List.length_cons]
    omega

/-- σ₀ of the SHA-256 message schedule. -/
def ssig0 (x : Nat) : Nat := rotr 7 x ^^^ rotr 18 x ^^^ (x >>> 3)

/-- σ₁ of the SHA-256 message schedule. -/
def ssig1 (x : Nat) : Nat := rotr 17 x ^^^ rotr 19 x ^^^ (x >>> 10)

/-- Next word of the message schedule from the words so far. -/
def nextWord (w : List Nat) : Nat :=
  let n := w.length
  w32 (ssig1 (w.getD (n - 2) 0) + w.getD (n - 7) 0 +
       ssig0 (w.getD (n - 15) 0) + w.getD (n - 16) 0)

/-- The 64-word message schedule of one block. -/
def msgSchedule (block : List Nat) : List Nat :=
  let w16 := (List.range 16).map (fun i =>
    (block.getD (4 * i) 0 % 256) * 16777216 +
    (block.getD (4 * i + 1) 0 % 256) * 65536 +
    (block.getD (4 * i + 2) 0 % 256) * 256 +
    (block.getD (4 * i + 3) 0 % 256))
  (List.range 48).foldl (fun w _ => w ++ [nextWord w]) w16

/-- One SHA-256 round on the working state `[a,b,c,d,e,f,g,h]`. -/
def sha256Round (st : List Nat) (kw : Nat × Nat) : List Nat :=
  let a := st.getD 0 0
  let b := st.getD 1 0
  let c := st.getD 2 0
  let d := st.getD 3 0
  let e := st.getD 4 0
  let f := st.getD 5 0
  let g := st.getD 6 0
  let h := st.getD 7 0
  let s1 := rotr 6 e ^^^ rotr 11 e ^^^ rotr 25 e
  let ch := (e &&& f) ^^^ ((e ^^^ 4294967295) &&& g)
  let temp1 := w32 (h + s1 + ch + kw.1 + kw.2)
  let s0 := rotr 2 a ^^^ rotr 13 a ^^^ rotr 22 a
  let maj := (a &&& b) ^^^ (a &&& c) ^^^ (b &&& c)
  let temp2 := w32 (s0 + maj)
  [w32 (temp1 + temp2), a, b, c, w32 (d + temp1), e, f, g]

/-- Compress one 64-byte block into the hash state. -/
def sha256Compress (hs : List Nat) (block : List Nat) : List Nat :=
  let w := msgSchedule block
  let st := (sha256K.zip w).foldl sha256Round hs
  List.zipWith (fun x y => w32 (x + y)) hs st

/-- SHA-256 digest bytes of a byte list. -/
def sha256Bytes (m : List Nat) : List Nat :=
  (((chunks64 (padMsg m)).foldl sha256Compress sha256H0).map be32).flatten

/-- Two lowercase hex characters of a byte (Rust's `{:x}` rendering of
the digest). -/
def hexByte (b : Nat) : Str := [hexDigit (b / 16), hexDigit (b % 16)]

/-- Lowercase hex SHA-256 digest of a byte list, as `format!("{:x}", hash)`
renders it. -/
def sha256Hex (m : List Nat) : Str := ((sha256Bytes m).map hexByte).flatten

/-! ## Nostr client (`src/nostr_client.rs`)

A nostr event is embedded by its kind, content and tag list; each tag is
a list of strings, mirroring `nostr_sdk`'s representation (`Tag::title(v)`
is `["title", v]`, `Tag::hashtag(v)` is `["t", v]`, `Tag::identifier(v)`
is `["d", v]`, `Tag::custom(k, [v])` is `[k, v]`).  The event id and
Schnorr signature attached by signing are cryptographic material outside
the model; no claim inspects them.  Network interactions are recorded as
an effect trace and their outcomes supplied by explicit parameters. -/

/-- A nostr tag. -/
abbrev NTag := List Str

/-- The unsigned essentials of a nostr event. -/
structure NEvent where
  kind : Nat
  content : Str
  tags : List NTag
  deriving DecidableEq, Repr

/-- `NostrCredentials` from `src/post.rs`. -/
structure NostrCredentials where
  private_key : Str
  public_key : Str
  display_name : Option Str
  about : Option Str
  picture : Option Str
  nip05 : Option Str
  deriving DecidableEq, Repr

/-- The state of `NostrClient`.  The inner `nostr_sdk::Client` always
holds signing keys — `NostrClient::new` constructs it with
`Keys::generate()` and `set_credentials` replaces them — so signing
itself never fails for lack of keys; only the `credentials` field
records whether user credentials are loaded. -/
structure NostrClientState where
  credentials : Option NostrCredentials
  deriving DecidableEq, Repr

/-- `NostrClient::has_credentials`. -/
def hasCredentials (c : NostrClientState) : Bool :=
  c.credentials.isSome

/-- Observable effects of the nostr client's network path. -/
inductive NostrEffect
  | addRelay (url : Str)
  | connect
  | sleepSecs (n : Nat)
  | sign
  | sendEvent
  deriving DecidableEq, Repr

/-- `NostrClient::connect_to_relays` (`src/nostr_client.rs:48-65`):
adds every active relay (failures only logged), connects, sleeps two
seconds, and always returns `Ok`. -/
def connectToRelaysEffects (settings : RelaySettings) : List NostrEffect :=
  (getActiveRelays settings).map .addRelay ++ [.connect, .sleepSecs 2]

/-- The tag list built for the long-form content event
(`src/nostr_client.rs:77-104`). -/
def longFormTags (post : BlogPost) : List NTag :=
  [[str "title", post.title]] ++
  (match post.summary with
   | some s => [[str "summary", s]]
   | none => []) ++
  post.tags.map (fun t => [str "t", t]) ++
  (match post.image_url with
   | some u => [[str "image", u]]
   | none => []) ++
  [[str "published_at", intToStr post.created_at]] ++
  [[str "d", str "blogster-" ++ post.id]]

/-- `NostrClient::publish_long_form_post` (`src/nostr_client.rs:67-141`).
`eventId` stands for the id the signer assigns, and `sendOutcome` for
`client.send_event`'s result: the relay URLs that acknowledged the event
(or the transport error).  The second component is the trace of network
and signing effects performed. -/
def publishLongFormPost (c : NostrClientState) (post : BlogPost)
    (settings : RelaySettings) (eventId : Str)
    (sendOutcome : Except Str (List Str)) :
    Except Str (Str × List Str) × List NostrEffect :=
  if c.credentials.isNone then
    (.error (str "No Nostr credentials configured"), [])
  else if !isReadyToPublish post then
    (.error (str "Post is not ready to publish (missing title or content)"), [])
  else
    let _event : NEvent := { kind := 30023, content := post.content, tags := longFormTags post }
    let effects := connectToRelaysEffects settings ++ [.sign, .sendEvent]
    match sendOutcome with
    | .error e => (.error (str "Failed to publish event: " ++ e), effects)
    | .ok successfulRelays =>
      if successfulRelays.isEmpty then
        (.error (str "Failed to publish to any relay"), effects)
      else
        (.ok (eventId, successfulRelays), effects)

/-! ## Blossom client (`src/blossom_client.rs`) -/

/-- `BlossomSettings`. -/
structure BlossomSettings where
  server_url : Str
  deriving DecidableEq, Repr

/-- `BlossomUploadResponse`: the parsed JSON body of a successful upload. -/
structure BlossomUploadResponse where
  url : Str
  sha256 : Str
  content_type : Str
  size : Nat
  deriving DecidableEq, Repr

/-- The state of `BlossomClient`: its settings and the optionally
attached nostr client (`set_nostr_client`). -/
structure BlossomClient where
  settings : BlossomSettings
  nostr_client : Option NostrClientState
  deriving DecidableEq, Repr

/-- An HTTP response to the upload `PUT`: its status success flag, the
error body text, and the result of parsing the body as a
`BlossomUploadResponse`. -/
structure HttpResponse where
  statusSuccess : Bool
  errorText : Str
  json : Option BlossomUploadResponse
  deriving DecidableEq, Repr

/-- Observable effects of the Blossom upload path. -/
inductive BlossomEffect
  | httpPut (url : Str)
  | warnShaMismatch
  deriving DecidableEq, Repr

/-- `anyhow`'s `.context(msg)` on an error, as rendered in the chain. -/
def ctxErr (msg e : Str) : Str := msg ++ str ": " ++ e

/-- `BlossomClient::create_auth_header` (`src/blossom_client.rs:54-80`).
`now` is `Timestamp::now()`.  Returns the signed upload-authorization
event; the transport rendering of the header — `"Nostr "` followed by
the base64 of the event's canonical JSON — is a bijective packaging of
the event that no claim inspects, so the event itself is returned. -/
def createAuthHeader (b : BlossomClient) (fileContent : List Nat)
    (filename : Str) (now : Nat) : Except Str NEvent :=
  let hashHex := sha256Hex fileContent
  let content := str "Upload " ++ filename
  let expiration := now + 600
  let tags : List NTag :=
    [[str "t", str "upload"],
     [str "x", hashHex],
     [str "expiration", natDigits expiration]]
  match b.nostr_client with
  | some _ => .ok { kind := 24242, content := content, tags := tags }
  | none => .error (str "No Nostr client available for authorization")

/-- The fixed extension → content-type mapping of `upload_file`
(`src/blossom_client.rs:100-112`); the argument is the lowercased
file extension, when the path has one. -/
def contentTypeFor (ext : Option Str) : Str :=
  if ext = some (str "png") then str "image/png"
  else if ext = some (str "jpg") ∨ ext = some (str "jpeg") then str "image/jpeg"
  else if ext = some (str "gif") then str "image/gif"
  else if ext = some (str "webp") then str "image/webp"
  else if ext = some (str "svg") then str "image/svg+xml"
  else str "application/octet-stream"

/-- `BlossomClient::upload_file` (`src/blossom_client.rs:82-168`).
`readResult` is the outcome of `fs::read`; `fileName` the path's base
name; `ext` the lowercased extension; `now` the clock; `response` the
network's answer to the `PUT` (a transport error or an HTTP response).
The second component is the trace of effects performed: the `PUT`
itself and the logged digest-mismatch warning. -/
def uploadFile (b : BlossomClient) (readResult : Except Str (List Nat))
    (fileName : Str) (ext : Option Str) (now : Nat)
    (response : Except Str HttpResponse) :
    Except Str Str × List BlossomEffect :=
  match readResult with
  | .error e => (.error (ctxErr (str "Failed to read file") e), [])
  | .ok fileContent =>
    let sha256hex := sha256Hex fileContent
    let _contentType := contentTypeFor ext
    let uploadUrl := b.settings.server_url ++ str "/upload"
    match createAuthHeader b fileContent fileName now with
    | .error e => (.error (ctxErr (str "Failed to create authorization header") e), [])
    | .ok _authEvent =>
      match response with
      | .error e =>
        (.error (ctxErr (str "Failed to upload file to Blossom server") e),
         [.httpPut uploadUrl])
      | .ok resp =>
        if !resp.statusSuccess then
          (.error (str "Blossom upload failed with status: " ++ resp.errorText),
           [.httpPut uploadUrl])
        else
          match resp.json with
          | none =>
            (.error (str "Failed to parse Blossom upload response"), [.httpPut uploadUrl])
          | some r =>
            (.ok r.url,
             [.httpPut uploadUrl] ++
               (if r.sha256 ≠ sha256hex then [.warnShaMismatch] else []))

/-! ## Derived views used by the proofs -/

/-- Join lines, terminating each with a newline. -/
def joinNL (ls : List Str) : Str := (ls.map (· ++ ['\n'])).flatten

/-- Join lines with newline separators (no trailing newline). -/
def interNL : List Str → Str
  | [] => []
  | [l] => l
  | l :: ls => l ++ '\n' :: interNL ls

/-- The raw text after the colon of a `key: "value"` frontmatter line. -/
def quoteVal (s : Str) : Str := ' ' :: '"' :: (s ++ ['"'])

/-- A `key: "value"` frontmatter line, decomposed at its colon. -/
def keyedLine (name : String) (s : Str) : Str := str name ++ ':' :: quoteVal s

/-- A `  - "item"` frontmatter list line. -/
def dashLine (s : Str) : Str := str "  - \"" ++ (s ++ ['"'])

/-- The frontmatter of a serialized post, as a list of lines (without
their terminating newlines).  `toMarkdownWithFrontmatter` emits exactly
these lines between the two `---` delimiters. -/
def fmLines (p : BlogPost) : List Str :=
  [keyedLine "title" (escapeQuotes p.title),
   keyedLine "id" p.id,
   keyedLine "created_at" (rfc3339OfUnix p.created_at),
   keyedLine "updated_at" (rfc3339OfUnix p.updated_at),
   keyedLine "status" (statusDebug p.status)] ++
  (match p.summary with
   | some s => [keyedLine "summary" (escapeQuotes s)]
   | none => []) ++
  (if p.tags.isEmpty then []
   else str "tags:" :: p.tags.map (fun t => dashLine (escapeQuotes t))) ++
  (match p.image_url with
   | some u => [keyedLine "image" u]
   | none => []) ++
  (match p.nostr_event_id with
   | some e => [keyedLine "nostr_event_id" e]
   | none => []) ++
  (if p.published_relays.isEmpty then []
   else str "published_relays:" :: p.published_relays.map (fun r => dashLine r))

/-- A line whose key (if it has one) after trimming differs from `k`,
so the parsing loop's `k` branch cannot fire on it. -/
def lineSkipKey (k : Str) (l : Str) : Prop :=
  ∀ kv, splitOnceChar ':' l = some kv → rustTrim kv.1 ≠ k

/-- A well-shaped frontmatter line: nonempty, no embedded newline, does
not begin with `'-'` (so it cannot be confused with the closing `---`
delimiter), and does not end with a carriage return. -/
def lineOk (l : Str) : Prop :=
  l ≠ [] ∧ '\n' ∉ l ∧ l.head? ≠ some '-' ∧ l.getLast? ≠ some '\r'

/-! ## Concrete inputs used by counterexamples and witnesses -/

/-- A canonical UUID used by concrete examples. -/
def uuidA : Str := str "123e4567-e89b-12d3-a456-426614174000"

/-- A second canonical UUID (the freshly drawn id at parse time). -/
def uuidB : Str := str "00000000-0000-0000-0000-000000000000"

/-- A post whose title contains a double quote, with one tag and a
nonzero creation time: serialization and re-parsing loses all three. -/
def c1post : BlogPost :=
  { id := uuidA, title := str "a\"b", content := str "BODY", summary := none,
    tags := [str "x"], image_url := none, created_at := 100, updated_at := 100,
    status := .Draft, nostr_event_id := none, published_relays := [],
    file_path := none }

/-- A well-formed post exercising every optional field, used by the
round-trip witness. -/
def c1nicePost : BlogPost :=
  { id := uuidA, title := str "Hello World", content := str "Some body text",
    summary := some (str "a summary"), tags := [str "nostr", str "blog"],
    image_url := some (str "https://blossom.band/i.png"),
    created_at := 1700000000, updated_at := 1700000001, status := .Published,
    nostr_event_id := some (str "abcdef"),
    published_relays := [str "wss://relay.damus.io"], file_path := none }

/-- A Blossom client whose nostr client is attached but carries no
loaded user credentials. -/
def c3client : BlossomClient :=
  { settings := { server_url := str "https://blossom.band" },
    nostr_client := some { credentials := none } }

/-- A successful upload response whose digest matches the upload. -/
def c3resp : HttpResponse :=
  { statusSuccess := true, errorText := [],
    json := some { url := str "https://blossom.band/f.png",
                   sha256 := sha256Hex [], content_type := str "image/png",
                   size := 0 } }

/-- An upload response whose reported digest differs from the digest of
the empty file (one extra leading character). -/
def c4resp : HttpResponse :=
  { statusSuccess := true, errorText := [],
    json := some { url := str "https://blossom.band/g.png",
                   sha256 := 'x' :: sha256Hex [], content_type := str "image/png",
                   size := 0 } }

/-- The mismatching response record inside `c4resp`. -/
def c4record : BlossomUploadResponse :=
  { url := str "https://blossom.band/g.png", sha256 := 'x' :: sha256Hex [],
    content_type := str "image/png", size := 0 }

/-- A nostr client with loaded credentials, for witnesses. -/
def credClient : NostrClientState :=
  { credentials := some { private_key := str "nsec1aaa", public_key := str "bbb",
                          display_name := none, about := none, picture := none,
                          nip05 := none } }

/-- A relay-settings value whose custom list holds a malformed entry. -/
def c9settings : RelaySettings :=
  { custom_relays := [str "bad"], use_default_relays := true,
    use_custom_relays := false }

/-- A relay-settings value whose custom list holds one well-formed relay. -/
def c9okSettings : RelaySettings :=
  { custom_relays := [str "wss://test.relay.com"], use_default_relays := true,
    use_custom_relays := false }

/-- A ready-to-publish post for the tag-shape witness. -/
def c2post : BlogPost :=
  { id := uuidA, title := str "T", content := str "C", summary := none,
    tags := [str "one", str "two"], image_url := none, created_at := 42,
    updated_at := 42, status := .Draft, nostr_event_id := none,
    published_relays := [], file_path := none }

/-! ## Theorems: relay configuration (C6, C7, C9) -/

/-- A non-`Ok` `Except` is an error carrying some payload. -/
theorem error_of_not_isOk {ε α : Type} (x : Except ε α) (h : ¬ x.isOk = true) :
    ∃ e, x = .error e := by
  cases x
  · exact ⟨_, rfl⟩
  · exact absurd rfl h

/-- Every scalar value takes at least one UTF-8 byte, so the character
count never exceeds the byte length. -/
theorem length_le_utf8Len (s : Str) : s.length ≤ utf8Len s := by
  induction s with
  | nil => simp [utf8Len]
  | cons c cs ih =>
    have hw : 1 ≤ utf8Width c := by
      unfold utf8Width
      split_ifs <;> omega
    have : utf8Len (c :: cs) = utf8Width c + utf8Len cs := by
      simp [utf8Len]
    rw [this, List.length_cons]
    omega

/-- `add_relay` succeeds exactly for a well-schemed, long-enough,
not-yet-present URL (length in UTF-8 bytes, as Rust `len()` counts). -/
theorem addRelay_isOk_iff (s : RelaySettings) (url : Str) :
    (addRelay s url).isOk = true ↔
      (((str "wss://").isPrefixOf url = true ∨ (str "ws://").isPrefixOf url = true) ∧
        10 ≤ utf8Len url ∧ url ∉ s.custom_relays) := by
  cases h1 : (str "wss://").isPrefixOf url <;>
    cases h2 : (str "ws://").isPrefixOf url <;>
    by_cases hlen : utf8Len url < 10 <;>
    by_cases hmem : url ∈ s.custom_relays <;>
    simp [addRelay, h1, h2, hlen, hmem, Except.isOk, Except.toBool] <;>
    omega

/-- `validate_relay_url` succeeds exactly for a well-schemed,
long-enough URL containing a dot (length in UTF-8 bytes). -/
theorem validateRelayUrl_isOk_iff (url : Str) :
    (validateRelayUrl url).isOk = true ↔
      (((str "wss://").isPrefixOf url = true ∨ (str "ws://").isPrefixOf url = true) ∧
        10 ≤ utf8Len url ∧ '.' ∈ url) := by
  cases h1 : (str "wss://").isPrefixOf url <;>
    cases h2 : (str "ws://").isPrefixOf url <;>
    by_cases hlen : utf8Len url < 10 <;>
    by_cases hdot : '.' ∈ url <;>
    simp [validateRelayUrl, h1, h2, hlen, hdot, Except.isOk, Except.toBool] <;>
    omega

/-- The final fallback of `get_active_relays` guarantees nonemptiness. -/
theorem ite_default_nonempty (l : List Str) :
    (if l.isEmpty = true then getDefaultRelays else l) ≠ [] := by
  cases h : l.isEmpty
  · rw [if_neg (by simp)]
    intro hnil
    rw [hnil] at h
    simp at h
  · rw [if_pos rfl]
    decide

/-- C6: with both relay flags off, `get_active_relays` returns exactly the
fixed default list of five relay URLs; and for every settings value the
returned list is nonempty. -/
theorem active_relays_default_fallback_c6 (s : RelaySettings) :
    (s.use_default_relays = false → s.use_custom_relays = false →
      getActiveRelays s = getDefaultRelays ∧ getDefaultRelays.length = 5) ∧
    getActiveRelays s ≠ [] := by
  constructor
  · intro hd hc
    refine ⟨?_, by decide⟩
    simp only [getActiveRelays, hd, hc]
    rfl
  · exact ite_default_nonempty
      (rustDedup (sortStr ((if s.use_default_relays = true then getDefaultRelays else []) ++
        (if s.use_custom_relays = true then s.custom_relays else []))))

/-- C6 witness: a concrete settings value with both flags off falls back
to the default five relays, and the result is nonempty. -/
theorem active_relays_default_fallback_c6_witness :
    getActiveRelays { custom_relays := [str "x"], use_default_relays := false,
                      use_custom_relays := false } = getDefaultRelays ∧
    getActiveRelays { custom_relays := [str "x"], use_default_relays := false,
                      use_custom_relays := false } ≠ [] := by
  have h := active_relays_default_fallback_c6
    { custom_relays := [str "x"], use_default_relays := false, use_custom_relays := false }
  exact ⟨(h.1 rfl rfl).1, h.2⟩

/-- C7 counterexample: `add_relay` accepts `"wss://abcd"`, a URL of
length 10 with the `wss://` scheme but no `'.'`, so acceptance does not
require a dot. -/
theorem add_relay_dot_counterexample_c7 :
    (addRelay defaultRelaySettings (str "wss://abcd")).isOk = true ∧
    ('.' ∉ str "wss://abcd") := by
  constructor
  · decide
  · decide

/-- C7 (amended): `add_relay` accepts a URL only if it starts with
`ws://` or `wss://` and its UTF-8 byte length (Rust `len()`) is at
least 10; violating either of those two conditions is rejected with an
error.  The `'.'` requirement is enforced only by the separate
`validate_relay_url`, whose acceptance is exactly equivalent to all
three conditions together. -/
theorem add_relay_validation_c7 (s : RelaySettings) (url : Str) :
    ((addRelay s url).isOk = true →
      ((str "wss://").isPrefixOf url = true ∨ (str "ws://").isPrefixOf url = true) ∧
        10 ≤ utf8Len url) ∧
    ((((str "wss://").isPrefixOf url = false ∧ (str "ws://").isPrefixOf url = false) ∨
        utf8Len url < 10) →
      ∃ e, addRelay s url = .error e) ∧
    ((validateRelayUrl url).isOk = true ↔
      (((str "wss://").isPrefixOf url = true ∨ (str "ws://").isPrefixOf url = true) ∧
        10 ≤ utf8Len url ∧ '.' ∈ url)) := by
  refine ⟨?_, ?_, validateRelayUrl_isOk_iff url⟩
  · intro hok
    have h := (addRelay_isOk_iff s url).mp hok
    exact ⟨h.1, h.2.1⟩
  · intro hbad
    refine error_of_not_isOk _ ?_
    rw [addRelay_isOk_iff]
    rintro ⟨hpre, hlen, -⟩
    rcases hbad with ⟨h1, h2⟩ | hshort
    · rcases hpre with h | h
      · rw [h1] at h
        exact Bool.false_ne_true h
      · rw [h2] at h
        exact Bool.false_ne_true h
    · omega

/-- C7 witness: `"ws://x"` is 6 bytes, shorter than 10, and is rejected. -/
theorem add_relay_validation_c7_witness :
    ∃ e, addRelay defaultRelaySettings (str "ws://x") = .error e :=
  (add_relay_validation_c7 defaultRelaySettings (str "ws://x")).2.1 (.inr (by decide))

/-- C9 counterexample: a settings value whose custom list already holds
the (malformed) entry `"bad"`; re-adding it fails with the scheme error,
not the duplicate error. -/
theorem add_relay_duplicate_counterexample_c9 :
    str "bad" ∈ c9settings.custom_relays ∧
    addRelay c9settings (str "bad") =
      .error (str "Relay URL must start with wss:// or ws://") ∧
    str "Relay URL must start with wss:// or ws://" ≠ str "Relay already exists" := by
  refine ⟨by decide, rfl, by decide⟩

/-- C9 (amended): re-adding a URL already present always fails — leaving
the list unchanged, since only the `Ok` branch pushes — and the error is
the duplicate error exactly when the stored URL passes the scheme and
length checks that run first. -/
theorem add_relay_duplicate_c9 (s : RelaySettings) (url : Str)
    (hmem : url ∈ s.custom_relays) :
    (∃ e, addRelay s url = .error e) ∧
    (((str "wss://").isPrefixOf url = true ∨ (str "ws://").isPrefixOf url = true) →
      10 ≤ url.length →
      addRelay s url = .error (str "Relay already exists")) := by
  constructor
  · refine error_of_not_isOk _ ?_
    rw [addRelay_isOk_iff]
    rintro ⟨-, -, hno⟩
    exact hno hmem
  · intro hpre hlen
    have hb := length_le_utf8Len url
    have hlen' : ¬ utf8Len url < 10 := by omega
    rcases hpre with h1 | h2
    · simp [addRelay, h1, hlen', hmem]
    · simp [addRelay, h2, hlen', hmem]

/-- C9 witness: re-adding a well-formed relay already present yields the
duplicate error. -/
theorem add_relay_duplicate_c9_witness :
    addRelay c9okSettings (str "wss://test.relay.com") =
      .error (str "Relay already exists") :=
  (add_relay_duplicate_c9 c9okSettings (str "wss://test.relay.com") (by decide)).2
    (.inl (by decide)) (by decide)

/-! ## Theorems: parser totality (C10) and upload authorization (C8) -/

/-- C10: `from_markdown_with_frontmatter` is total — it returns `Ok` on
every input — and an input not starting with the frontmatter delimiter
becomes the body wholesale, with the title taken from the first
`"# "`-heading line (trimmed) when one exists and left empty otherwise. -/
theorem from_markdown_total_c10 (content : Str) (fp : Option Str)
    (freshId : Str) (now : Int) :
    (∃ p, fromMarkdownWithFrontmatter content fp freshId now = .ok p) ∧
    ((str "---\n").isPrefixOf content = false →
      fromMarkdownWithFrontmatter content fp freshId now =
        .ok { defaultPost freshId now with
                file_path := fp,
                content := content,
                title :=
                  match (rustLines content).find? (fun l => (str "# ").isPrefixOf l) with
                  | some titleLine => rustTrim (titleLine.drop 2)
                  | none => [] } ) := by
  constructor
  · unfold fromMarkdownWithFrontmatter
    cases hp : (str "---\n").isPrefixOf content
    · simp only [Bool.false_eq_true, if_false]
      exact ⟨_, rfl⟩
    · simp only [if_true]
      cases hfind : findSub (str "\n---\n") (content.drop 4)
      · exact ⟨_, rfl⟩
      · exact ⟨_, rfl⟩
  · intro h
    unfold fromMarkdownWithFrontmatter
    rw [h]
    simp only [Bool.false_eq_true, if_false]
    cases hf : (rustLines content).find? (fun l => (str "# ").isPrefixOf l) <;>
      (simp only [hf]; try rfl)

/-- C10 witness: a concrete no-frontmatter input parses to itself as
body with the heading-derived title. -/
theorem from_markdown_total_c10_witness :
    fromMarkdownWithFrontmatter (str "x\n# T \nrest") none (str "id") 7 =
      .ok { defaultPost (str "id") 7 with
              file_path := none,
              content := str "x\n# T \nrest",
              title :=
                match (rustLines (str "x\n# T \nrest")).find?
                    (fun l => (str "# ").isPrefixOf l) with
                | some titleLine => rustTrim (titleLine.drop 2)
                | none => [] } :=
  (from_markdown_total_c10 (str "x\n# T \nrest") none (str "id") 7).2 (by decide)

/-- C8: the upload-authorization event carries kind 24242, content
`"Upload "` followed by the file name, a `t`/`upload` tag, an `x` tag
holding the lowercase hex SHA-256 of the file bytes, and an expiration
tag of the issue time plus 600 seconds — exactly these tags, in order. -/
theorem upload_auth_event_c8 (b : BlossomClient) (fc : List Nat) (fn : Str)
    (now : Nat) (c : NostrClientState) (h : b.nostr_client = some c) :
    ∃ ev, createAuthHeader b fc fn now = .ok ev ∧
      ev.kind = 24242 ∧
      ev.content = str "Upload " ++ fn ∧
      ev.tags = [[str "t", str "upload"],
                 [str "x", sha256Hex fc],
                 [str "expiration", natDigits (now + 600)]] := by
  refine ⟨{ kind := 24242, content := str "Upload " ++ fn,
            tags := [[str "t", str "upload"],
                     [str "x", sha256Hex fc],
                     [str "expiration", natDigits (now + 600)]] }, ?_, rfl, rfl, rfl⟩
  unfold createAuthHeader
  rw [h]

/-- C8 witness: the authorization event for the empty file named
`"f.png"` at time 0 has the required shape. -/
theorem upload_auth_event_c8_witness :
    ∃ ev, createAuthHeader c3client [] (str "f.png") 0 = .ok ev ∧
      ev.kind = 24242 ∧
      ev.content = str "Upload " ++ str "f.png" ∧
      ev.tags = [[str "t", str "upload"],
                 [str "x", sha256Hex []],
                 [str "expiration", natDigits (0 + 600)]] :=
  upload_auth_event_c8 c3client [] (str "f.png") 0 { credentials := none } rfl

/-! ## Theorems: long-form tags (C2), upload flow (C3, C4), publish validation (C5) -/

/-- C2: for a ready post the long-form event's tag list carries exactly
one title tag, exactly one published_at tag valued at the post's
creation unix time, exactly one identifier (`d`) tag valued
`blogster-` followed by the post id, and one hashtag (`t`) tag per post
tag, in the same order as the post's tags. -/
theorem long_form_event_tags_c2 (post : BlogPost)
    (_h : isReadyToPublish post = true) :
    (longFormTags post).countP (fun tg => tg.head? = some (str "title")) = 1 ∧
    (longFormTags post).countP (fun tg => tg.head? = some (str "published_at")) = 1 ∧
    [str "published_at", intToStr post.created_at] ∈ longFormTags post ∧
    (longFormTags post).countP (fun tg => tg.head? = some (str "d")) = 1 ∧
    [str "d", str "blogster-" ++ post.id] ∈ longFormTags post ∧
    (longFormTags post).filter (fun tg => tg.head? = some (str "t")) =
      post.tags.map (fun t => [str "t", t]) := by
  have k1 : str "summary" ≠ str "title" := by decide
  have k2 : str "t" ≠ str "title" := by decide
  have k3 : str "image" ≠ str "title" := by decide
  have k4 : str "published_at" ≠ str "title" := by decide
  have k5 : str "d" ≠ str "title" := by decide
  have m1 : str "title" ≠ str "published_at" := by decide
  have m2 : str "summary" ≠ str "published_at" := by decide
  have m3 : str "t" ≠ str "published_at" := by decide
  have m4 : str "image" ≠ str "published_at" := by decide
  have m5 : str "d" ≠ str "published_at" := by decide
  have n1 : str "title" ≠ str "d" := by decide
  have n2 : str "summary" ≠ str "d" := by decide
  have n3 : str "t" ≠ str "d" := by decide
  have n4 : str "image" ≠ str "d" := by decide
  have n5 : str "published_at" ≠ str "d" := by decide
  have q1 : str "title" ≠ str "t" := by decide
  have q2 : str "summary" ≠ str "t" := by decide
  have q3 : str "image" ≠ str "t" := by decide
  have q4 : str "published_at" ≠ str "t" := by decide
  have q5 : str "d" ≠ str "t" := by decide
  have hfil : ∀ (l : List Str),
      List.filter ((fun tg => decide (List.head? tg = some (str "t"))) ∘
        fun t => [str "t", t]) l = l := by
    intro l
    induction l with
    | nil => rfl
    | cons a as ih => simp [Function.comp, ih]
  unfold longFormTags
  cases post.summary <;> cases post.image_url <;>
    simp [List.countP_append, List.countP_cons, List.countP_map,
      List.filter_append, List.filter_map, List.countP_eq_zero,
      Function.comp, k1, k2, k3, k4, k5, m1, m2, m3, m4, m5,
      n1, n2, n3, n4, n5, q1, q2, q3, q4, q5, List.filter_eq_self] <;>
  rw [hfil post.tags]


/-- C2 witness: the tag-shape property instantiated at a concrete ready
post with two tags. -/
theorem long_form_event_tags_c2_witness :
    (longFormTags c2post).countP (fun tg => tg.head? = some (str "title")) = 1 ∧
    (longFormTags c2post).countP (fun tg => tg.head? = some (str "published_at")) = 1 ∧
    [str "published_at", intToStr c2post.created_at] ∈ longFormTags c2post ∧
    (longFormTags c2post).countP (fun tg => tg.head? = some (str "d")) = 1 ∧
    [str "d", str "blogster-" ++ c2post.id] ∈ longFormTags c2post ∧
    (longFormTags c2post).filter (fun tg => tg.head? = some (str "t")) =
      c2post.tags.map (fun t => [str "t", t]) :=
  long_form_event_tags_c2 c2post (by decide)

/-- C3 (amended): with no nostr client attached — the only state in
which no signer is available — `upload_file` fails while building the
authorization header and the effect trace is empty: no network call. -/
theorem upload_no_signer_c3 (b : BlossomClient) (bytes : List Nat) (fn : Str)
    (ext : Option Str) (now : Nat) (resp : Except Str HttpResponse)
    (h : b.nostr_client = none) :
    uploadFile b (.ok bytes) fn ext now resp =
      (.error (ctxErr (str "Failed to create authorization header")
        (str "No Nostr client available for authorization")), []) := by
  unfold uploadFile createAuthHeader
  rw [h]

/-- C3 witness: a client with no attached signer fails the upload of the
empty file with no network effect. -/
theorem upload_no_signer_c3_witness :
    uploadFile { settings := { server_url := str "https://blossom.band" },
                 nostr_client := none } (.ok []) (str "f.png")
        (some (str "png")) 0 (.ok c3resp) =
      (.error (ctxErr (str "Failed to create authorization header")
        (str "No Nostr client available for authorization")), []) :=
  upload_no_signer_c3 _ [] (str "f.png") (some (str "png")) 0 (.ok c3resp) rfl

/-- C3 counterexample: a Blossom client whose nostr client is attached
but has no loaded user credentials still performs the HTTP `PUT` and
returns the server URL — no no-credentials failure occurs. -/
theorem upload_no_credentials_counterexample_c3 :
    hasCredentials { credentials := none } = false ∧
    (uploadFile c3client (.ok []) (str "f.png") (some (str "png")) 0 (.ok c3resp)).1 =
      .ok (str "https://blossom.band/f.png") ∧
    (uploadFile c3client (.ok []) (str "f.png") (some (str "png")) 0 (.ok c3resp)).2.head? =
      some (.httpPut (str "https://blossom.band" ++ str "/upload")) := by
  exact ⟨rfl, rfl, rfl⟩

/-- C4: a successful upload response with a parseable body whose
reported digest differs from the locally computed one still returns the
server URL; the mismatch only adds a logged warning to the trace. -/
theorem upload_sha_mismatch_c4 (b : BlossomClient) (c : NostrClientState)
    (bytes : List Nat) (fn : Str) (ext : Option Str) (now : Nat)
    (resp : HttpResponse) (r : BlossomUploadResponse)
    (hc : b.nostr_client = some c)
    (hs : resp.statusSuccess = true)
    (hj : resp.json = some r)
    (hm : r.sha256 ≠ sha256Hex bytes) :
    uploadFile b (.ok bytes) fn ext now (.ok resp) =
      (.ok r.url,
       [.httpPut (b.settings.server_url ++ str "/upload"), .warnShaMismatch]) := by
  simp only [uploadFile, createAuthHeader, hc, hs, hj, Bool.not_true,
    Bool.false_eq_true, if_false]
  rw [if_pos hm]
  rfl

/-- C4 witness: uploading the empty file against a response whose
digest has an extra leading character succeeds with the server URL and
a warning in the trace. -/
theorem upload_sha_mismatch_c4_witness :
    uploadFile c3client (.ok []) (str "g.png") (some (str "png")) 0 (.ok c4resp) =
      (.ok c4record.url,
       [.httpPut (c3client.settings.server_url ++ str "/upload"), .warnShaMismatch]) :=
  upload_sha_mismatch_c4 c3client { credentials := none } [] (str "g.png")
    (some (str "png")) 0 c4resp c4record rfl rfl rfl
    (by
      intro h
      have hlen := congrArg List.length h
      simp [c4record] at hlen)

/-- C5 (amended): publishing a post that is not ready (blank title or
body after trimming) performs no signing and no network effect and
fails — with the validation error whenever credentials are loaded, and
with the no-credentials error otherwise. -/
theorem publish_blank_validation_c5 (c : NostrClientState) (post : BlogPost)
    (settings : RelaySettings) (eid : Str) (send : Except Str (List Str))
    (h : isReadyToPublish post = false) :
    (publishLongFormPost c post settings eid send).2 = [] ∧
    (∃ e, (publishLongFormPost c post settings eid send).1 = .error e) ∧
    (c.credentials.isSome = true →
      (publishLongFormPost c post settings eid send).1 =
        .error (str "Post is not ready to publish (missing title or content)")) := by
  cases hc : c.credentials with
  | none =>
    refine ⟨?_, ⟨str "No Nostr credentials configured", ?_⟩, ?_⟩ <;>
      simp [publishLongFormPost, hc]
  | some cr =>
    refine ⟨?_, ⟨str "Post is not ready to publish (missing title or content)", ?_⟩,
        fun _ => ?_⟩ <;>
      simp [publishLongFormPost, hc, h]

/-- C5 witness: a blank post on a client with loaded credentials fails
with the validation error, with an empty effect trace. -/
theorem publish_blank_validation_c5_witness :
    (publishLongFormPost credClient (defaultPost uuidA 0) defaultRelaySettings
        [] (.ok [])).2 = [] ∧
    (publishLongFormPost credClient (defaultPost uuidA 0) defaultRelaySettings
        [] (.ok [])).1 =
      .error (str "Post is not ready to publish (missing title or content)") := by
  have h := publish_blank_validation_c5 credClient (defaultPost uuidA 0)
    defaultRelaySettings [] (.ok []) (by decide)
  exact ⟨h.1, h.2.2 (by decide)⟩

/-- C5 counterexample: on a client without credentials, a blank post
fails with the no-credentials error, not the validation error (though
still with no signing or network effect). -/
theorem publish_blank_counterexample_c5 :
    isReadyToPublish (defaultPost uuidB 0) = false ∧
    (publishLongFormPost { credentials := none } (defaultPost uuidB 0)
        defaultRelaySettings [] (.ok [])).1 =
      .error (str "No Nostr credentials configured") ∧
    str "No Nostr credentials configured" ≠
      str "Post is not ready to publish (missing title or content)" := by
  exact ⟨by decide, rfl, by decide⟩

/-! ### C1: round-trip of markdown serialization and parsing -/

/-- Dropping from the left commutes with a non-matching last element. -/
theorem dropWhile_append_singleton (p : Char → Bool) (x : Char) (hx : p x = false)
    (l : Str) : (l ++ [x]).dropWhile p = l.dropWhile p ++ [x] := by
  induction l with
  | nil => simp [List.dropWhile, hx]
  | cons c l ih =>
    by_cases hc : p c
    · simp [List.dropWhile_cons, hc, ih]
    · simp [List.dropWhile_cons, hc]

/-- A non-matching last element survives `dropEndWhile`. -/
theorem dropEndWhile_concat_false (p : Char → Bool) (x : Char) (hx : p x = false)
    (l : Str) : dropEndWhile p (l ++ [x]) = l ++ [x] := by
  simp [dropEndWhile, List.dropWhile_cons, hx]

/-- A matching last element is removed by `dropEndWhile`. -/
theorem dropEndWhile_concat_true (p : Char → Bool) (x : Char) (hx : p x = true)
    (l : Str) : dropEndWhile p (l ++ [x]) = dropEndWhile p l := by
  simp [dropEndWhile, List.dropWhile_cons, hx]

/-- A non-matching head passes through `dropEndWhile`. -/
theorem dropEndWhile_cons_false (p : Char → Bool) (x : Char) (hx : p x = false)
    (l : Str) : dropEndWhile p (x :: l) = x :: dropEndWhile p l := by
  simp [dropEndWhile, List.reverse_cons, dropWhile_append_singleton p x hx]

/-- `dropEndWhile` is the identity on lists with no matching element. -/
theorem dropEndWhile_eq_self (p : Char → Bool) (l : Str)
    (h : ∀ c ∈ l, p c = false) : dropEndWhile p l = l := by
  induction l with
  | nil => rfl
  | cons c l ih =>
    rw [dropEndWhile_cons_false p c (h c (by simp)), ih (fun d hd => h d (by simp [hd]))]

/-- Trimming a space-prefixed, quote-delimited value keeps the quotes. -/
theorem rustTrim_quoteVal (s : Str) :
    rustTrim (quoteVal s) = '"' :: (s ++ ['"']) := by
  have w1 : isRustWhitespace ' ' = true := by decide
  have w2 : isRustWhitespace '"' = false := by decide
  show rustTrim (' ' :: '"' :: (s ++ ['"'])) = _
  unfold rustTrim
  rw [List.dropWhile_cons_of_pos w1, List.dropWhile_cons_of_neg (by simp [w2])]
  rw [show ('"' :: (s ++ ['"'])) = ('"' :: s) ++ ['"'] by simp]
  rw [dropEndWhile_concat_false _ _ w2]

/-- Stripping the delimiting quotes of a quote-free payload recovers it. -/
theorem trimQuotes_wrap (s : Str) (h : '"' ∉ s) :
    trimQuotes ('"' :: (s ++ ['"'])) = s := by
  unfold trimQuotes
  rw [List.dropWhile_cons_of_pos (by simp)]
  cases s with
  | nil => simp [List.dropWhile, dropEndWhile]
  | cons c s' =>
    have hc : c ≠ '"' := fun he => h (he ▸ List.mem_cons_self c s')
    rw [show ((c :: s') ++ ['"'] : Str) = c :: (s' ++ ['"']) by simp]
    rw [List.dropWhile_cons_of_neg (by simp [hc])]
    rw [show (c :: (s' ++ ['"']) : Str) = (c :: s') ++ ['"'] by simp]
    rw [dropEndWhile_concat_true _ _ (by simp)]
    exact dropEndWhile_eq_self _ _ (fun d hd => by
      simp only [decide_eq_false_iff_not]
      exact fun he => h (he ▸ hd))

/-- The parsed value of a `key: "value"` line with quote-free payload. -/
theorem valueOf_quoteVal (s : Str) (h : '"' ∉ s) :
    trimQuotes (rustTrim (quoteVal s)) = s := by
  rw [rustTrim_quoteVal, trimQuotes_wrap s h]

/-- The cons unfolding of `split_once`. -/
theorem splitOnceChar_cons (c x : Char) (xs : Str) :
    splitOnceChar c (x :: xs) =
      if x = c then some ([], xs)
      else (splitOnceChar c xs).map (fun p => (x :: p.1, p.2)) := rfl

/-- `split_once(':')` splits at an explicit colon after a colon-free key. -/
theorem splitOnceChar_key (k v : Str) (hk : ':' ∉ k) :
    splitOnceChar ':' (k ++ ':' :: v) = some (k, v) := by
  induction k with
  | nil => simp [splitOnceChar]
  | cons c k ih =>
    have hc : c ≠ ':' := fun he => hk (he ▸ List.mem_cons_self c k)
    rw [List.cons_append, splitOnceChar_cons, if_neg hc,
      ih (fun hm => hk (List.mem_cons_of_mem c hm))]
    rfl

/-- `split_once(':')` passes over a colon-free prefix. -/
theorem splitOnceChar_front (a b : Str) (ha : ':' ∉ a) :
    splitOnceChar ':' (a ++ b) =
      (splitOnceChar ':' b).map (fun pr => (a ++ pr.1, pr.2)) := by
  induction a with
  | nil => simp [Option.map_id]
  | cons c a ih =>
    have hc : c ≠ ':' := fun he => ha (he ▸ List.mem_cons_self c a)
    rw [List.cons_append, splitOnceChar_cons, if_neg hc,
      ih (fun hm => ha (List.mem_cons_of_mem c hm))]
    cases splitOnceChar ':' b <;> rfl

/-- `split_once(':')` on a `key: "value"` line. -/
theorem keyedLine_split (name : String) (hk : ':' ∉ str name) (T : Str) :
    splitOnceChar ':' (keyedLine name T) = some (str name, quoteVal T) :=
  splitOnceChar_key _ _ hk

/-- Processing the title line sets the title to the unquoted value. -/
theorem processLine_title (q : BlogPost) (T : Str) (h : '"' ∉ T) :
    processLine q (keyedLine "title" T) = { q with title := T } := by
  simp only [processLine, keyedLine_split "title" (by decide)]
  rw [if_pos (show rustTrim (str "title") = str "title" by decide),
    valueOf_quoteVal T h]

/-- Processing the id line with a canonical UUID value sets the id. -/
theorem processLine_id (q : BlogPost) (U : Str) (hu : isCanonicalUuid U = true)
    (hq : '"' ∉ U) :
    processLine q (keyedLine "id" U) = { q with id := U } := by
  simp only [processLine, keyedLine_split "id" (by decide)]
  rw [if_neg (show ¬ rustTrim (str "id") = str "title" by decide),
    if_pos (show rustTrim (str "id") = str "id" by decide),
    valueOf_quoteVal U hq]
  simp [uuidParseStr, hu]

/-- Processing the status line restores the serialized status. -/
theorem processLine_status (q : BlogPost) (st : PostStatus) :
    processLine q (keyedLine "status" (statusDebug st)) = { q with status := st } := by
  have hq : '"' ∉ statusDebug st := by cases st <;> decide
  simp only [processLine, keyedLine_split "status" (by decide)]
  rw [if_neg (show ¬ rustTrim (str "status") = str "title" by decide),
    if_neg (show ¬ rustTrim (str "status") = str "id" by decide),
    if_neg (show ¬ rustTrim (str "status") = str "summary" by decide),
    if_neg (show ¬ rustTrim (str "status") = str "image" by decide),
    if_neg (show ¬ rustTrim (str "status") = str "nostr_event_id" by decide),
    if_pos (show rustTrim (str "status") = str "status" by decide),
    valueOf_quoteVal _ hq]
  cases st
  · rw [if_neg (by decide), if_neg (by decide)]
  · rw [if_pos (by decide)]
  · rw [if_neg (by decide), if_pos (by decide)]

/-- Processing the summary line sets only the summary. -/
theorem processLine_summary (q : BlogPost) (T : Str) :
    processLine q (keyedLine "summary" T) =
      { q with summary := some (trimQuotes (rustTrim (quoteVal T))) } := by
  simp only [processLine, keyedLine_split "summary" (by decide)]
  rw [if_neg (show ¬ rustTrim (str "summary") = str "title" by decide),
    if_neg (show ¬ rustTrim (str "summary") = str "id" by decide),
    if_pos (show rustTrim (str "summary") = str "summary" by decide)]

/-- Processing the image line sets the image reference. -/
theorem processLine_image (q : BlogPost) (u : Str) (h : '"' ∉ u) :
    processLine q (keyedLine "image" u) = { q with image_url := some u } := by
  simp only [processLine, keyedLine_split "image" (by decide)]
  rw [if_neg (show ¬ rustTrim (str "image") = str "title" by decide),
    if_neg (show ¬ rustTrim (str "image") = str "id" by decide),
    if_neg (show ¬ rustTrim (str "image") = str "summary" by decide),
    if_pos (show rustTrim (str "image") = str "image" by decide),
    valueOf_quoteVal u h]

/-- Processing the nostr-event-id line sets the event id. -/
theorem processLine_nostr (q : BlogPost) (e : Str) (h : '"' ∉ e) :
    processLine q (keyedLine "nostr_event_id" e) =
      { q with nostr_event_id := some e } := by
  simp only [processLine, keyedLine_split "nostr_event_id" (by decide)]
  rw [if_neg (show ¬ rustTrim (str "nostr_event_id") = str "title" by decide),
    if_neg (show ¬ rustTrim (str "nostr_event_id") = str "id" by decide),
    if_neg (show ¬ rustTrim (str "nostr_event_id") = str "summary" by decide),
    if_neg (show ¬ rustTrim (str "nostr_event_id") = str "image" by decide),
    if_pos (show rustTrim (str "nostr_event_id") = str "nostr_event_id" by decide),
    valueOf_quoteVal e h]

/-- `processLine` never touches tags, timestamps, content, file path or
the published-relay list. -/
theorem processLine_rest (q : BlogPost) (l : Str) :
    (processLine q l).tags = q.tags ∧
    (processLine q l).created_at = q.created_at ∧
    (processLine q l).updated_at = q.updated_at ∧
    (processLine q l).content = q.content ∧
    (processLine q l).file_path = q.file_path ∧
    (processLine q l).published_relays = q.published_relays := by
  cases hsp : splitOnceChar ':' l with
  | none => simp [processLine, hsp]
  | some kv =>
    simp only [processLine, hsp]
    split_ifs <;>
      first
        | exact ⟨rfl, rfl, rfl, rfl, rfl, rfl⟩
        | (cases uuidParseStr (trimQuotes (rustTrim kv.2)) <;>
            exact ⟨rfl, rfl, rfl, rfl, rfl, rfl⟩)

/-- A line whose key is not `title` leaves the title unchanged. -/
theorem processLine_title_frame (q : BlogPost) (l : Str)
    (h : lineSkipKey (str "title") l) :
    (processLine q l).title = q.title := by
  cases hsp : splitOnceChar ':' l with
  | none => simp [processLine, hsp]
  | some kv =>
    simp only [processLine, hsp]
    rw [if_neg (h kv hsp)]
    split_ifs <;>
      first
        | rfl
        | (cases uuidParseStr (trimQuotes (rustTrim kv.2)) <;> rfl)

/-- A line whose key is not `id` leaves the id unchanged. -/
theorem processLine_id_frame (q : BlogPost) (l : Str)
    (h : lineSkipKey (str "id") l) :
    (processLine q l).id = q.id := by
  cases hsp : splitOnceChar ':' l with
  | none => simp [processLine, hsp]
  | some kv =>
    simp only [processLine, hsp]
    by_cases h1 : rustTrim kv.1 = str "title"
    · rw [if_pos h1]
    · rw [if_neg h1, if_neg (h kv hsp)]
      split_ifs <;> rfl

/-- A line whose key is not `status` leaves the status unchanged. -/
theorem processLine_status_frame (q : BlogPost) (l : Str)
    (h : lineSkipKey (str "status") l) :
    (processLine q l).status = q.status := by
  cases hsp : splitOnceChar ':' l with
  | none => simp [processLine, hsp]
  | some kv =>
    simp only [processLine, hsp]
    split_ifs <;>
      first
        | rfl
        | (cases uuidParseStr (trimQuotes (rustTrim kv.2)) <;> rfl)
        | exact absurd ‹rustTrim kv.1 = str "status"› (h kv hsp)

/-- A line whose key is not `image` leaves the image reference unchanged. -/
theorem processLine_image_frame (q : BlogPost) (l : Str)
    (h : lineSkipKey (str "image") l) :
    (processLine q l).image_url = q.image_url := by
  cases hsp : splitOnceChar ':' l with
  | none => simp [processLine, hsp]
  | some kv =>
    simp only [processLine, hsp]
    split_ifs <;>
      first
        | rfl
        | (cases uuidParseStr (trimQuotes (rustTrim kv.2)) <;> rfl)
        | exact absurd ‹rustTrim kv.1 = str "image"› (h kv hsp)

/-- A line whose key is not `nostr_event_id` leaves the event id unchanged. -/
theorem processLine_nostr_frame (q : BlogPost) (l : Str)
    (h : lineSkipKey (str "nostr_event_id") l) :
    (processLine q l).nostr_event_id = q.nostr_event_id := by
  cases hsp : splitOnceChar ':' l with
  | none => simp [processLine, hsp]
  | some kv =>
    simp only [processLine, hsp]
    split_ifs <;>
      first
        | rfl
        | (cases uuidParseStr (trimQuotes (rustTrim kv.2)) <;> rfl)
        | exact absurd ‹rustTrim kv.1 = str "nostr_event_id"› (h kv hsp)

/-- A cons list with head `a` differs from any string not starting `a`. -/
theorem cons_ne_of_head (a : Char) (s : String) (h : (str s).head? ≠ some a)
    (z : Str) : a :: z ≠ str s :=
  fun he => h (he ▸ rfl)

/-- A line with a colon-free key trimming to something other than `k`
is skipped for `k`. -/
theorem lineSkipKey_colon (a v k : Str) (ha : ':' ∉ a) (hne : rustTrim a ≠ k) :
    lineSkipKey k (a ++ ':' :: v) := by
  intro kv h
  rw [splitOnceChar_key a v ha] at h
  cases h
  exact hne

/-- `key: "value"` lines are skipped for any other key. -/
theorem lineSkipKey_keyed (name : String) (T k : Str) (hk : ':' ∉ str name)
    (hne : rustTrim (str name) ≠ k) : lineSkipKey k (keyedLine name T) :=
  lineSkipKey_colon (str name) (quoteVal T) k hk hne

/-- The trimmed key of a `  - "item"` line starts with a dash. -/
theorem rustTrim_dash (w : Str) :
    rustTrim (str "  - \"" ++ w) =
      '-' :: dropEndWhile isRustWhitespace (' ' :: '"' :: w) := by
  have w1 : isRustWhitespace ' ' = true := by decide
  have w2 : isRustWhitespace '-' = false := by decide
  show rustTrim (' ' :: ' ' :: '-' :: ' ' :: '"' :: w) = _
  unfold rustTrim
  rw [List.dropWhile_cons_of_pos w1, List.dropWhile_cons_of_pos w1,
    List.dropWhile_cons_of_neg (by simp [w2])]
  exact dropEndWhile_cons_false _ _ w2 _

/-- `  - "item"` lines are skipped for every keyword key. -/
theorem lineSkipKey_dash (w k : Str) (hk : ∀ z : Str, '-' :: z ≠ k) :
    lineSkipKey k (str "  - \"" ++ w) := by
  intro kv h
  rw [splitOnceChar_front (str "  - \"") w (by decide)] at h
  cases hw : splitOnceChar ':' w with
  | none => rw [hw] at h; cases h
  | some pr =>
    rw [hw, Option.map_some'] at h
    cases h
    rw [show (str "  - \"" ++ pr.1, pr.2).1 = str "  - \"" ++ pr.1 from rfl,
      rustTrim_dash]
    exact hk _

/-- The fold over lines never touches tags, timestamps, content, file
path or the published-relay list. -/
theorem foldl_rest (ls : List Str) : ∀ q : BlogPost,
    ((ls.foldl processLine q).tags = q.tags ∧
     (ls.foldl processLine q).created_at = q.created_at ∧
     (ls.foldl processLine q).updated_at = q.updated_at ∧
     (ls.foldl processLine q).content = q.content ∧
     (ls.foldl processLine q).file_path = q.file_path ∧
     (ls.foldl processLine q).published_relays = q.published_relays) := by
  induction ls with
  | nil => exact fun q => ⟨rfl, rfl, rfl, rfl, rfl, rfl⟩
  | cons l ls ih =>
    intro q
    have h1 := processLine_rest q l
    have h2 := ih (processLine q l)
    simp only [List.foldl_cons]
    exact ⟨h2.1.trans h1.1, h2.2.1.trans h1.2.1, h2.2.2.1.trans h1.2.2.1,
      h2.2.2.2.1.trans h1.2.2.2.1, h2.2.2.2.2.1.trans h1.2.2.2.2.1,
      h2.2.2.2.2.2.trans h1.2.2.2.2.2⟩

/-- Folding over title-skipping lines preserves the title. -/
theorem foldl_title_frame (ls : List Str)
    (h : ∀ l ∈ ls, lineSkipKey (str "title") l) :
    ∀ q : BlogPost, (ls.foldl processLine q).title = q.title := by
  induction ls with
  | nil => exact fun _ => rfl
  | cons l ls ih =>
    intro q
    simp only [List.foldl_cons]
    rw [ih (fun m hm => h m (List.mem_cons_of_mem l hm)) (processLine q l),
      processLine_title_frame q l (h l (List.mem_cons_self l ls))]

/-- Folding over id-skipping lines preserves the id. -/
theorem foldl_id_frame (ls : List Str)
    (h : ∀ l ∈ ls, lineSkipKey (str "id") l) :
    ∀ q : BlogPost, (ls.foldl processLine q).id = q.id := by
  induction ls with
  | nil => exact fun _ => rfl
  | cons l ls ih =>
    intro q
    simp only [List.foldl_cons]
    rw [ih (fun m hm => h m (List.mem_cons_of_mem l hm)) (processLine q l),
      processLine_id_frame q l (h l (List.mem_cons_self l ls))]

/-- Folding over status-skipping lines preserves the status. -/
theorem foldl_status_frame (ls : List Str)
    (h : ∀ l ∈ ls, lineSkipKey (str "status") l) :
    ∀ q : BlogPost, (ls.foldl processLine q).status = q.status := by
  induction ls with
  | nil => exact fun _ => rfl
  | cons l ls ih =>
    intro q
    simp only [List.foldl_cons]
    rw [ih (fun m hm => h m (List.mem_cons_of_mem l hm)) (processLine q l),
      processLine_status_frame q l (h l (List.mem_cons_self l ls))]

/-- Folding over image-skipping lines preserves the image reference. -/
theorem foldl_image_frame (ls : List Str)
    (h : ∀ l ∈ ls, lineSkipKey (str "image") l) :
    ∀ q : BlogPost, (ls.foldl processLine q).image_url = q.image_url := by
  induction ls with
  | nil => exact fun _ => rfl
  | cons l ls ih =>
    intro q
    simp only [List.foldl_cons]
    rw [ih (fun m hm => h m (List.mem_cons_of_mem l hm)) (processLine q l),
      processLine_image_frame q l (h l (List.mem_cons_self l ls))]

/-- Folding over nostr-id-skipping lines preserves the event id. -/
theorem foldl_nostr_frame (ls : List Str)
    (h : ∀ l ∈ ls, lineSkipKey (str "nostr_event_id") l) :
    ∀ q : BlogPost, (ls.foldl processLine q).nostr_event_id = q.nostr_event_id := by
  induction ls with
  | nil => exact fun _ => rfl
  | cons l ls ih =>
    intro q
    simp only [List.foldl_cons]
    rw [ih (fun m hm => h m (List.mem_cons_of_mem l hm)) (processLine q l),
      processLine_nostr_frame q l (h l (List.mem_cons_self l ls))]

/-- Escaping is the identity on quote-free text. -/
theorem escapeQuotes_eq_self (s : Str) (h : '"' ∉ s) : escapeQuotes s = s := by
  induction s with
  | nil => rfl
  | cons c s ih =>
    have hc : c ≠ '"' := fun he => h (he ▸ List.mem_cons_self c s)
    simp only [escapeQuotes, List.flatMap_cons, if_neg hc]
    have := ih (fun hm => h (List.mem_cons_of_mem c hm))
    simp only [escapeQuotes] at this
    rw [this]
    rfl

/-- Characters of escaped text: either from the source or the escape pair. -/
theorem mem_escapeQuotes (s : Str) (c : Char) (h : c ∈ escapeQuotes s) :
    c ∈ s ∨ c = '\\' ∨ c = '"' := by
  induction s with
  | nil => cases h
  | cons d s ih =>
    simp only [escapeQuotes, List.flatMap_cons] at h
    by_cases hd : d = '"'
    · rw [if_pos hd] at h
      rcases List.mem_append.mp h with hm | hm
      · rcases List.mem_cons.mp hm with rfl | hm
        · exact .inr (.inl rfl)
        · rcases List.mem_cons.mp hm with rfl | hm
          · exact .inr (.inr rfl)
          · cases hm
      · rcases ih hm with hm | hm
        · exact .inl (List.mem_cons_of_mem d hm)
        · exact .inr hm
    · rw [if_neg hd] at h
      rcases List.mem_append.mp h with hm | hm
      · rcases List.mem_cons.mp hm with rfl | hm
        · exact .inl (List.mem_cons_self _ _)
        · cases hm
      · rcases ih hm with hm | hm
        · exact .inl (List.mem_cons_of_mem d hm)
        · exact .inr hm

/-- A canonical UUID string contains only hex digits and dashes, hence
neither quotes nor newlines. -/
theorem uuid_chars (s : Str) (h : isCanonicalUuid s = true) :
    '"' ∉ s ∧ '\n' ∉ s := by
  have hlen : s.length = 36 := by
    have := (Bool.and_eq_true _ _).mp h
    exact by simpa using this.1
  have hall := (Bool.and_eq_true _ _).mp h |>.2
  rw [List.all_eq_true] at hall
  constructor <;>
  · intro hm
    obtain ⟨i, hi, hget⟩ := List.getElem_of_mem hm
    have hi36 : i < 36 := by omega
    have := hall i (by simp [List.mem_range]; omega)
    have hgd : s.getD i ' ' = s[i] := List.getD_eq_getElem s ' ' hi
    rw [hgd, hget] at this
    split at this
    · exact absurd this (by decide)
    · exact absurd this (by decide)

/-- `joinNL` on a cons. -/
theorem joinNL_cons (l : Str) (ls : List Str) :
    joinNL (l :: ls) = l ++ '\n' :: joinNL ls := by
  simp [joinNL]

/-- `joinNL` of a nonempty list has positive length. -/
theorem joinNL_length_pos (l : Str) (ls : List Str) :
    0 < (joinNL (l :: ls)).length := by
  rw [joinNL_cons]
  simp

/-- The find for `"\n---\n"` skips a newline-free line: it either fires
at the line's own newline (when `"---\n"` follows) or continues after it. -/
theorem findSub_skip (l r : Str) (hnl : '\n' ∉ l) :
    findSub (str "\n---\n") (l ++ '\n' :: r) =
      if (str "---\n").isPrefixOf r = true then some l.length
      else (findSub (str "\n---\n") r).map (· + (l.length + 1)) := by
  induction l with
  | nil =>
    rw [List.nil_append]
    conv_lhs => unfold findSub
    rw [show ((str "\n---\n").isPrefixOf ('\n' :: r)) = (str "---\n").isPrefixOf r
      from rfl]
    simp only [List.length_nil, Nat.zero_add]
  | cons c l ih =>
    have hc : c ≠ '\n' := fun he => hnl (he ▸ List.mem_cons_self c l)
    have hcp : (str "\n---\n").isPrefixOf (c :: (l ++ '\n' :: r)) = false := by
      rw [show (str "\n---\n") = '\n' :: str "---\n" from rfl]
      simp [List.isPrefixOf, Ne.symm hc]
    rw [List.cons_append]
    conv_lhs => unfold findSub
    rw [hcp]
    simp only [Bool.false_eq_true, if_false]
    rw [ih (fun hm => hnl (List.mem_cons_of_mem c hm))]
    cases hp : (str "---\n").isPrefixOf r
    · simp only [Bool.false_eq_true, if_false, Option.map_map]
      cases findSub (str "\n---\n") r with
      | none => rfl
      | some v =>
        simp only [Option.map_some', Function.comp_apply, Option.some.injEq,
          List.length_cons]
        omega
    · simp [List.length_cons]

/-- A string starting with a non-dash character is not `"---\n"`-prefixed. -/
theorem not_prefix_dashes (c : Char) (rest : Str) (hc : c ≠ '-') :
    (str "---\n").isPrefixOf (c :: rest) = false := by
  rw [show (str "---\n") = '-' :: str "--\n" from rfl]
  simp [List.isPrefixOf, Ne.symm hc]

/-- The closing delimiter of the serialized form is found exactly at the
final newline of the frontmatter: one position before its end. -/
theorem findSub_joinNL (ls : List Str) (body : Str)
    (hok : ∀ l ∈ ls, l ≠ [] ∧ '\n' ∉ l ∧ l.head? ≠ some '-') (hne : ls ≠ []) :
    findSub (str "\n---\n") (joinNL ls ++ (str "---\n\n" ++ body)) =
      some ((joinNL ls).length - 1) := by
  induction ls with
  | nil => exact absurd rfl hne
  | cons l ls ih =>
    obtain ⟨hl1, hl2, hl3⟩ := hok l (List.mem_cons_self l ls)
    rw [joinNL_cons]
    rw [show (l ++ '\n' :: joinNL ls) ++ (str "---\n\n" ++ body) =
      l ++ '\n' :: (joinNL ls ++ (str "---\n\n" ++ body)) by simp]
    rw [findSub_skip _ _ hl2]
    cases ls with
    | nil =>
      rw [if_pos]
      · simp [joinNL]
      · show (str "---\n").isPrefixOf (joinNL [] ++ (str "---\n\n" ++ body)) = true
        rw [show joinNL [] ++ (str "---\n\n" ++ body) =
          str "---\n" ++ ('\n' :: body) from rfl]
        rw [List.isPrefixOf_iff_prefix]
        exact List.prefix_append _ _
    | cons l2 ls2 =>
      obtain ⟨hm1, _, hm3⟩ := hok l2 (List.mem_cons_of_mem l (List.mem_cons_self l2 ls2))
      have hnp : (str "---\n").isPrefixOf (joinNL (l2 :: ls2) ++ (str "---\n\n" ++ body)) = false := by
        cases hl2' : l2 with
        | nil => exact absurd hl2' hm1
        | cons c2 t2 =>
          have hc2 : c2 ≠ '-' := by
            rw [hl2'] at hm3
            simpa using hm3
          rw [joinNL_cons]
          rw [show ((c2 :: t2) ++ '\n' :: joinNL ls2) ++ (str "---\n\n" ++ body) =
            c2 :: (t2 ++ '\n' :: (joinNL ls2 ++ (str "---\n\n" ++ body))) by simp]
          exact not_prefix_dashes c2 _ hc2
      rw [hnp]
      simp only [Bool.false_eq_true, if_false]
      rw [ih (fun m hm => hok m (List.mem_cons_of_mem l hm)) (by simp)]
      have hpos := joinNL_length_pos l2 ls2
      simp only [joinNL_cons, List.length_append, List.length_cons] at hpos ⊢
      simp only [Option.map_some', Option.some.injEq]
      omega

/-- `dropLast` passes over a prefix when the suffix is nonempty. -/
theorem dropLast_append_ne (a b : Str) (hb : b ≠ []) :
    (a ++ b).dropLast = a ++ b.dropLast := by
  induction a with
  | nil => simp
  | cons c a ih =>
    have hab : a ++ b ≠ [] := fun h0 => hb (List.append_eq_nil.mp h0).2
    rw [List.cons_append, List.dropLast_cons_of_ne_nil hab, ih, List.cons_append]

/-- Dropping the final newline of joined lines yields the interleaving. -/
theorem dropLast_joinNL (ls : List Str) (hne : ls ≠ []) :
    (joinNL ls).dropLast = interNL ls := by
  induction ls with
  | nil => exact absurd rfl hne
  | cons l ls ih =>
    cases ls with
    | nil =>
      rw [joinNL_cons]
      show (l ++ ['\n']).dropLast = l
      rw [List.dropLast_concat]
    | cons l2 ls2 =>
      rw [joinNL_cons]
      have hjn : joinNL (l2 :: ls2) ≠ [] := by
        intro h0
        have := joinNL_length_pos l2 ls2
        rw [h0] at this
        simp at this
      rw [dropLast_append_ne l _ (List.cons_ne_nil _ _),
        List.dropLast_cons_of_ne_nil hjn, ih (by simp)]
      rfl

/-- `splitChar` does not split a separator-free string. -/
theorem splitChar_no (c : Char) (l : Str) (h : c ∉ l) : splitChar c l = [l] := by
  induction l with
  | nil => rfl
  | cons d l ih =>
    have hd : d ≠ c := fun he => h (he ▸ List.mem_cons_self d l)
    simp only [splitChar, if_neg hd, ih (fun hm => h (List.mem_cons_of_mem d hm))]

/-- `splitChar` splits off a separator-free first piece. -/
theorem splitChar_break (c : Char) (l rest : Str) (h : c ∉ l) :
    splitChar c (l ++ c :: rest) = l :: splitChar c rest := by
  induction l with
  | nil => simp [splitChar]
  | cons d l ih =>
    have hd : d ≠ c := fun he => h (he ▸ List.mem_cons_self d l)
    rw [List.cons_append]
    simp only [splitChar, if_neg hd, ih (fun hm => h (List.mem_cons_of_mem d hm))]

/-- `splitChar` inverts `interNL` on newline-free lines. -/
theorem splitChar_interNL (ls : List Str) (h : ∀ l ∈ ls, '\n' ∉ l)
    (hne : ls ≠ []) : splitChar '\n' (interNL ls) = ls := by
  induction ls with
  | nil => exact absurd rfl hne
  | cons l ls ih =>
    cases ls with
    | nil => exact splitChar_no '\n' l (h l (List.mem_cons_self l []))
    | cons l2 ls2 =>
      show splitChar '\n' (l ++ '\n' :: interNL (l2 :: ls2)) = _
      rw [splitChar_break '\n' l _ (h l (List.mem_cons_self l _)),
        ih (fun m hm => h m (List.mem_cons_of_mem l hm)) (by simp)]

/-- The last element reported by `getLast?` is a member. -/
theorem mem_of_getLast? : ∀ (ls : List Str) (x : Str), ls.getLast? = some x → x ∈ ls := by
  intro ls
  induction ls with
  | nil => intro x h; cases h
  | cons a t ih =>
    intro x h
    cases t with
    | nil =>
      simp only [List.getLast?_singleton, Option.some.injEq] at h
      simp [h]
    | cons b t2 =>
      rw [List.getLast?_cons_cons] at h
      exact List.mem_cons_of_mem a (ih x h)

/-- Mapping a function that fixes every member is the identity. -/
theorem map_id_of_mem (f : Str → Str) (ls : List Str)
    (h : ∀ l ∈ ls, f l = l) : ls.map f = ls := by
  induction ls with
  | nil => rfl
  | cons l ls ih =>
    rw [List.map_cons, h l (List.mem_cons_self l ls),
      ih (fun m hm => h m (List.mem_cons_of_mem l hm))]

/-- `str::lines` recovers the serialized frontmatter lines. -/
theorem rustLines_joinNL (ls : List Str) (hne : ls ≠ [])
    (hok : ∀ l ∈ ls, l ≠ [] ∧ '\n' ∉ l ∧ l.getLast? ≠ some '\r') :
    rustLines ((joinNL ls).dropLast) = ls := by
  rw [dropLast_joinNL ls hne]
  unfold rustLines
  simp only [splitChar_interNL ls (fun l hl => (hok l hl).2.1) hne]
  rw [if_neg (fun hlast => (hok [] (mem_of_getLast? ls [] hlast)).1 rfl)]
  exact map_id_of_mem _ _ (fun l hl => by
    unfold stripCr
    rw [if_neg (hok l hl).2.2])

/-- `joinNL` distributes over append. -/
theorem joinNL_append (a b : List Str) : joinNL (a ++ b) = joinNL a ++ joinNL b := by
  simp [joinNL]

/-- The serializer's title chunk is its frontmatter line plus newline. -/
theorem chunk_title (T : Str) :
    str "title: \"" ++ T ++ str "\"\n" = keyedLine "title" T ++ ['\n'] := by
  rw [show str "title: \"" = str "title" ++ ':' :: ' ' :: '"' :: [] by decide,
    show str "\"\n" = ('"' :: '\n' :: [] : Str) by decide]
  simp [keyedLine, quoteVal]

/-- The serializer's id chunk is its frontmatter line plus newline. -/
theorem chunk_id (T : Str) :
    str "id: \"" ++ T ++ str "\"\n" = keyedLine "id" T ++ ['\n'] := by
  rw [show str "id: \"" = str "id" ++ ':' :: ' ' :: '"' :: [] by decide,
    show str "\"\n" = ('"' :: '\n' :: [] : Str) by decide]
  simp [keyedLine, quoteVal]

/-- The serializer's created_at chunk is its frontmatter line plus newline. -/
theorem chunk_created (T : Str) :
    str "created_at: \"" ++ T ++ str "\"\n" = keyedLine "created_at" T ++ ['\n'] := by
  rw [show str "created_at: \"" = str "created_at" ++ ':' :: ' ' :: '"' :: [] by decide,
    show str "\"\n" = ('"' :: '\n' :: [] : Str) by decide]
  simp [keyedLine, quoteVal]

/-- The serializer's updated_at chunk is its frontmatter line plus newline. -/
theorem chunk_updated (T : Str) :
    str "updated_at: \"" ++ T ++ str "\"\n" = keyedLine "updated_at" T ++ ['\n'] := by
  rw [show str "updated_at: \"" = str "updated_at" ++ ':' :: ' ' :: '"' :: [] by decide,
    show str "\"\n" = ('"' :: '\n' :: [] : Str) by decide]
  simp [keyedLine, quoteVal]

/-- The serializer's status chunk is its frontmatter line plus newline. -/
theorem chunk_status (T : Str) :
    str "status: \"" ++ T ++ str "\"\n" = keyedLine "status" T ++ ['\n'] := by
  rw [show str "status: \"" = str "status" ++ ':' :: ' ' :: '"' :: [] by decide,
    show str "\"\n" = ('"' :: '\n' :: [] : Str) by decide]
  simp [keyedLine, quoteVal]

/-- The serializer's summary chunk is its frontmatter line plus newline. -/
theorem chunk_summary (T : Str) :
    str "summary: \"" ++ T ++ str "\"\n" = keyedLine "summary" T ++ ['\n'] := by
  rw [show str "summary: \"" = str "summary" ++ ':' :: ' ' :: '"' :: [] by decide,
    show str "\"\n" = ('"' :: '\n' :: [] : Str) by decide]
  simp [keyedLine, quoteVal]

/-- The serializer's image chunk is its frontmatter line plus newline. -/
theorem chunk_image (T : Str) :
    str "image: \"" ++ T ++ str "\"\n" = keyedLine "image" T ++ ['\n'] := by
  rw [show str "image: \"" = str "image" ++ ':' :: ' ' :: '"' :: [] by decide,
    show str "\"\n" = ('"' :: '\n' :: [] : Str) by decide]
  simp [keyedLine, quoteVal]

/-- The serializer's nostr-event-id chunk is its frontmatter line plus newline. -/
theorem chunk_nostr (T : Str) :
    str "nostr_event_id: \"" ++ T ++ str "\"\n" = keyedLine "nostr_event_id" T ++ ['\n'] := by
  rw [show str "nostr_event_id: \"" = str "nostr_event_id" ++ ':' :: ' ' :: '"' :: [] by decide,
    show str "\"\n" = ('"' :: '\n' :: [] : Str) by decide]
  simp [keyedLine, quoteVal]

/-- The serializer's list-item chunk is its frontmatter line plus newline. -/
theorem chunk_dash (w : Str) :
    str "  - \"" ++ w ++ str "\"\n" = dashLine w ++ ['\n'] := by
  rw [show str "\"\n" = ('"' :: '\n' :: [] : Str) by decide]
  simp [dashLine]

/-- The serializer's summary block matches its frontmatter lines. -/
theorem block_summary (p : BlogPost) :
    (match p.summary with
     | some s => str "summary: \"" ++ escapeQuotes s ++ str "\"\n"
     | none => []) =
      joinNL (match p.summary with
        | some s => [keyedLine "summary" (escapeQuotes s)]
        | none => []) := by
  cases p.summary with
  | none => rfl
  | some s =>
    show str "summary: \"" ++ escapeQuotes s ++ str "\"\n" = _
    rw [chunk_summary]
    simp [joinNL]

/-- The serializer's tags block matches its frontmatter lines. -/
theorem block_tags (p : BlogPost) :
    (if p.tags.isEmpty then []
     else str "tags:\n" ++
       (p.tags.map (fun t => str "  - \"" ++ escapeQuotes t ++ str "\"\n")).flatten) =
      joinNL (if p.tags.isEmpty then []
        else str "tags:" :: p.tags.map (fun t => dashLine (escapeQuotes t))) := by
  cases htag : p.tags.isEmpty
  · simp only [Bool.false_eq_true, if_false, joinNL_cons]
    rw [show str "tags:\n" = str "tags:" ++ ['\n'] by decide]
    have hmap : ∀ ts : List Str,
        (ts.map (fun t => str "  - \"" ++ escapeQuotes t ++ str "\"\n")).flatten =
          joinNL (ts.map (fun t => dashLine (escapeQuotes t))) := by
      intro ts
      induction ts with
      | nil => rfl
      | cons t ts ih =>
        simp only [List.map_cons, List.flatten_cons, joinNL_cons, ih, chunk_dash]
        simp [joinNL, List.map_map, Function.comp_def, List.append_assoc]
    rw [hmap]
    simp
  · simp [joinNL]

/-- The serializer's image block matches its frontmatter lines. -/
theorem block_image (p : BlogPost) :
    (match p.image_url with
     | some u => str "image: \"" ++ u ++ str "\"\n"
     | none => []) =
      joinNL (match p.image_url with
        | some u => [keyedLine "image" u]
        | none => []) := by
  cases p.image_url with
  | none => rfl
  | some u =>
    show str "image: \"" ++ u ++ str "\"\n" = _
    rw [chunk_image]
    simp [joinNL]

/-- The serializer's nostr-event-id block matches its frontmatter lines. -/
theorem block_nostr (p : BlogPost) :
    (match p.nostr_event_id with
     | some e => str "nostr_event_id: \"" ++ e ++ str "\"\n"
     | none => []) =
      joinNL (match p.nostr_event_id with
        | some e => [keyedLine "nostr_event_id" e]
        | none => []) := by
  cases p.nostr_event_id with
  | none => rfl
  | some e =>
    show str "nostr_event_id: \"" ++ e ++ str "\"\n" = _
    rw [chunk_nostr]
    simp [joinNL]

/-- The serializer's relay block matches its frontmatter lines. -/
theorem block_relays (p : BlogPost) :
    (if p.published_relays.isEmpty then []
     else str "published_relays:\n" ++
       (p.published_relays.map (fun r => str "  - \"" ++ r ++ str "\"\n")).flatten) =
      joinNL (if p.published_relays.isEmpty then []
        else str "published_relays:" :: p.published_relays.map (fun r => dashLine r)) := by
  cases hrel : p.published_relays.isEmpty
  · simp only [Bool.false_eq_true, if_false, joinNL_cons]
    rw [show str "published_relays:\n" = str "published_relays:" ++ ['\n'] by decide]
    have hmap : ∀ rs : List Str,
        (rs.map (fun r => str "  - \"" ++ r ++ str "\"\n")).flatten =
          joinNL (rs.map (fun r => dashLine r)) := by
      intro rs
      induction rs with
      | nil => rfl
      | cons r rs ih =>
        simp only [List.map_cons, List.flatten_cons, joinNL_cons, ih, chunk_dash]
        simp [joinNL, List.map_map, Function.comp_def, List.append_assoc]
    rw [hmap]
    simp
  · simp [joinNL]

/-- The serialized post is the frontmatter lines between the two
delimiters, followed by a blank line and the body. -/
theorem toMarkdown_shape (p : BlogPost) :
    toMarkdownWithFrontmatter p =
      str "---\n" ++ (joinNL (fmLines p) ++ (str "---\n\n" ++ p.content)) := by
  unfold toMarkdownWithFrontmatter fmLines
  rw [chunk_title, chunk_id, chunk_created, chunk_updated, chunk_status,
    block_summary, block_tags, block_image, block_nostr, block_relays]
  simp only [joinNL_append, joinNL_cons, joinNL]
  simp [List.append_assoc]

/-- Digit characters never include a newline. -/
theorem natDigitsAux_no_nl : ∀ (fuel n : Nat), '\n' ∉ natDigitsAux fuel n := by
  intro fuel
  induction fuel with
  | zero => intro n hm; cases hm
  | succ fuel ih =>
    intro n
    unfold natDigitsAux
    split
    · next h =>
      intro hm
      have he := List.mem_singleton.mp hm
      revert he
      interval_cases n <;> decide
    · next h =>
      intro hm
      rcases List.mem_append.mp hm with hm | hm
      · exact ih (n / 10) hm
      · have he := List.mem_singleton.mp hm
        have h10 : n % 10 < 10 := Nat.mod_lt _ (by omega)
        revert he
        revert h10
        generalize n % 10 = k
        intro h10
        interval_cases k <;> decide

/-- Decimal digits never contain a newline. -/
theorem natDigits_no_nl (n : Nat) : '\n' ∉ natDigits n :=
  natDigitsAux_no_nl (n + 1) n

/-- Two-digit fields never contain a newline. -/
theorem pad2_no_nl (n : Nat) : '\n' ∉ pad2 n := by
  unfold pad2
  split
  · intro hm
    rcases List.mem_cons.mp hm with h | h
    · cases h
    · exact natDigits_no_nl n h
  · exact natDigits_no_nl n

/-- Four-digit fields never contain a newline. -/
theorem pad4_no_nl (n : Nat) : '\n' ∉ pad4 n := by
  unfold pad4
  split
  · intro hm
    rcases List.mem_append.mp hm with h | h
    · revert h; decide
    · exact natDigits_no_nl n h
  split
  · intro hm
    rcases List.mem_append.mp hm with h | h
    · revert h; decide
    · exact natDigits_no_nl n h
  split
  · intro hm
    rcases List.mem_cons.mp hm with h | h
    · cases h
    · exact natDigits_no_nl n h
  · exact natDigits_no_nl n

/-- Year fields never contain a newline. -/
theorem yearStr_no_nl (y : Int) : '\n' ∉ yearStr y := by
  unfold yearStr
  split
  · intro hm
    rcases List.mem_cons.mp hm with h | h
    · cases h
    · exact pad4_no_nl _ h
  · exact pad4_no_nl _

/-- RFC 3339 timestamps never contain a newline. -/
theorem rfc3339_no_nl (t : Int) : '\n' ∉ rfc3339OfUnix t := by
  unfold rfc3339OfUnix
  intro hm
  rcases List.mem_append.mp hm with h | h
  rotate_left
  · revert h; decide
  rcases List.mem_append.mp h with h | h
  rotate_left
  · rcases List.mem_cons.mp h with h | h
    · cases h
    · exact pad2_no_nl _ h
  rcases List.mem_append.mp h with h | h
  rotate_left
  · rcases List.mem_cons.mp h with h | h
    · cases h
    · exact pad2_no_nl _ h
  rcases List.mem_append.mp h with h | h
  rotate_left
  · rcases List.mem_cons.mp h with h | h
    · cases h
    · exact pad2_no_nl _ h
  rcases List.mem_append.mp h with h | h
  rotate_left
  · rcases List.mem_cons.mp h with h | h
    · cases h
    · exact pad2_no_nl _ h
  rcases List.mem_append.mp h with h | h
  · exact yearStr_no_nl _ h
  · rcases List.mem_cons.mp h with h | h
    · cases h
    · exact pad2_no_nl _ h

/-- Escaping introduces no newline. -/
theorem escape_no_nl (s : Str) (h : '\n' ∉ s) : '\n' ∉ escapeQuotes s := by
  intro hm
  rcases mem_escapeQuotes s '\n' hm with hm | hm | hm
  · exact h hm
  · cases hm
  · cases hm

/-- Status renderings never contain a newline. -/
theorem statusDebug_no_nl (st : PostStatus) : '\n' ∉ statusDebug st := by
  cases st <;> decide

/-- A `key: "value"` line with a sane key and newline-free value is a
well-shaped frontmatter line. -/
theorem keyedLine_ok (name : String) (T : Str) (h1 : str name ≠ [])
    (h2 : (str name).head? ≠ some '-') (h3 : '\n' ∉ str name) (hT : '\n' ∉ T) :
    keyedLine name T ≠ [] ∧ '\n' ∉ keyedLine name T ∧
    (keyedLine name T).head? ≠ some '-' ∧
    (keyedLine name T).getLast? ≠ some '\r' := by
  refine ⟨?_, ?_, ?_, ?_⟩
  · intro he
    exact h1 (List.append_eq_nil.mp he).1
  · intro hm
    rcases List.mem_append.mp hm with hm | hm
    · exact h3 hm
    · rcases List.mem_cons.mp hm with h | hm
      · cases h
      · rcases List.mem_cons.mp hm with h | hm
        · cases h
        · rcases List.mem_cons.mp hm with h | hm
          · cases h
          · rcases List.mem_append.mp hm with hm | hm
            · exact hT hm
            · revert hm
              decide
  · cases hn : str name with
    | nil => exact absurd hn h1
    | cons c rest =>
      rw [keyedLine, hn, List.cons_append, List.head?_cons]
      rw [hn] at h2
      simpa using h2
  · rw [show keyedLine name T =
      (str name ++ ':' :: ' ' :: '"' :: T) ++ ['"'] by simp [keyedLine, quoteVal]]
    rw [List.getLast?_concat]
    decide

/-- A `  - "item"` line with newline-free payload is well shaped. -/
theorem dashLine_ok (w : Str) (hw : '\n' ∉ w) :
    dashLine w ≠ [] ∧ '\n' ∉ dashLine w ∧
    (dashLine w).head? ≠ some '-' ∧ (dashLine w).getLast? ≠ some '\r' := by
  refine ⟨?_, ?_, ?_, ?_⟩
  · intro he
    have := (List.append_eq_nil.mp he).1
    revert this
    decide
  · intro hm
    rcases List.mem_append.mp hm with hm | hm
    · revert hm; decide
    · rcases List.mem_append.mp hm with hm | hm
      · exact hw hm
      · revert hm; decide
  · intro he
    cases he
  · rw [show dashLine w = (str "  - \"" ++ w) ++ ['"'] by simp [dashLine]]
    rw [List.getLast?_concat]
    decide

/-- All frontmatter lines of a post with newline-free fields are
well shaped. -/
theorem fmLines_ok (p : BlogPost)
    (ht1 : '\n' ∉ p.title)
    (hid : isCanonicalUuid p.id = true)
    (hsum : ∀ s, p.summary = some s → '\n' ∉ s)
    (htags : ∀ t ∈ p.tags, '\n' ∉ t)
    (himg : ∀ u, p.image_url = some u → '\n' ∉ u)
    (hnid : ∀ e, p.nostr_event_id = some e → '\n' ∉ e)
    (hrel : ∀ r ∈ p.published_relays, '\n' ∉ r) :
    ∀ l ∈ fmLines p, l ≠ [] ∧ '\n' ∉ l ∧ l.head? ≠ some '-' ∧
      l.getLast? ≠ some '\r' := by
  intro l hl
  unfold fmLines at hl
  rcases List.mem_append.mp hl with hl | hl
  · rcases List.mem_append.mp hl with hl | hl
    · rcases List.mem_append.mp hl with hl | hl
      · rcases List.mem_append.mp hl with hl | hl
        · rcases List.mem_append.mp hl with hl | hl
          · rcases List.mem_cons.mp hl with rfl | hl
            · exact keyedLine_ok "title" _ (by decide) (by decide) (by decide)
                (escape_no_nl _ ht1)
            · rcases List.mem_cons.mp hl with rfl | hl
              · exact keyedLine_ok "id" _ (by decide) (by decide) (by decide)
                  (uuid_chars p.id hid).2
              · rcases List.mem_cons.mp hl with rfl | hl
                · exact keyedLine_ok "created_at" _ (by decide) (by decide)
                    (by decide) (rfc3339_no_nl _)
                · rcases List.mem_cons.mp hl with rfl | hl
                  · exact keyedLine_ok "updated_at" _ (by decide) (by decide)
                      (by decide) (rfc3339_no_nl _)
                  · rcases List.mem_cons.mp hl with rfl | hl
                    · exact keyedLine_ok "status" _ (by decide) (by decide)
                        (by decide) (statusDebug_no_nl _)
                    · cases hl
          · cases hs : p.summary with
            | none => rw [hs] at hl; cases hl
            | some s =>
              rw [hs] at hl
              rcases List.mem_singleton.mp hl with rfl
              exact keyedLine_ok "summary" _ (by decide) (by decide) (by decide)
                (escape_no_nl _ (hsum s hs))
        · cases htg : p.tags.isEmpty
          · rw [htg] at hl
            simp only [Bool.false_eq_true, if_false] at hl
            rcases List.mem_cons.mp hl with rfl | hl
            · exact ⟨by decide, by decide, by decide, by decide⟩
            · obtain ⟨t, htm, rfl⟩ := List.mem_map.mp hl
              exact dashLine_ok _ (escape_no_nl _ (htags t htm))
          · rw [htg] at hl
            simp at hl
      · cases hiu : p.image_url with
        | none => rw [hiu] at hl; cases hl
        | some u =>
          rw [hiu] at hl
          rcases List.mem_singleton.mp hl with rfl
          exact keyedLine_ok "image" _ (by decide) (by decide) (by decide)
            (himg u hiu)
    · cases hni : p.nostr_event_id with
      | none => rw [hni] at hl; cases hl
      | some e =>
        rw [hni] at hl
        rcases List.mem_singleton.mp hl with rfl
        exact keyedLine_ok "nostr_event_id" _ (by decide) (by decide) (by decide)
          (hnid e hni)
  · cases hpr : p.published_relays.isEmpty
    · rw [hpr] at hl
      simp only [Bool.false_eq_true, if_false] at hl
      rcases List.mem_cons.mp hl with rfl | hl
      · exact ⟨by decide, by decide, by decide, by decide⟩
      · obtain ⟨r, hrm, rfl⟩ := List.mem_map.mp hl
        exact dashLine_ok _ (hrel r hrm)
    · rw [hpr] at hl
      simp at hl

/-- The summary block is skipped for any key other than `summary`. -/
theorem skip_sumB (p : BlogPost) (k : Str) (h : rustTrim (str "summary") ≠ k) :
    ∀ l ∈ (match p.summary with
      | some s => [keyedLine "summary" (escapeQuotes s)]
      | none => ([] : List Str)), lineSkipKey k l := by
  cases p.summary with
  | none => intro l hl; cases hl
  | some s =>
    intro l hl
    rcases List.mem_singleton.mp hl with rfl
    exact lineSkipKey_keyed "summary" _ k (by decide) h

/-- The tags block is skipped for any keyword key other than `tags`. -/
theorem skip_tagB (p : BlogPost) (k : Str) (h : rustTrim (str "tags") ≠ k)
    (hd : ∀ z : Str, '-' :: z ≠ k) :
    ∀ l ∈ (if p.tags.isEmpty then ([] : List Str)
      else str "tags:" :: p.tags.map (fun t => dashLine (escapeQuotes t))),
      lineSkipKey k l := by
  cases htg : p.tags.isEmpty
  · simp only [Bool.false_eq_true, if_false]
    intro l hl
    rcases List.mem_cons.mp hl with rfl | hl
    · exact lineSkipKey_colon (str "tags") [] k (by decide) h
    · obtain ⟨t, _, rfl⟩ := List.mem_map.mp hl
      exact lineSkipKey_dash _ k hd
  · intro l hl
    simp at hl

/-- The image block is skipped for any key other than `image`. -/
theorem skip_imgB (p : BlogPost) (k : Str) (h : rustTrim (str "image") ≠ k) :
    ∀ l ∈ (match p.image_url with
      | some u => [keyedLine "image" u]
      | none => ([] : List Str)), lineSkipKey k l := by
  cases p.image_url with
  | none => intro l hl; cases hl
  | some u =>
    intro l hl
    rcases List.mem_singleton.mp hl with rfl
    exact lineSkipKey_keyed "image" _ k (by decide) h

/-- The nostr-id block is skipped for any key other than `nostr_event_id`. -/
theorem skip_nidB (p : BlogPost) (k : Str)
    (h : rustTrim (str "nostr_event_id") ≠ k) :
    ∀ l ∈ (match p.nostr_event_id with
      | some e => [keyedLine "nostr_event_id" e]
      | none => ([] : List Str)), lineSkipKey k l := by
  cases p.nostr_event_id with
  | none => intro l hl; cases hl
  | some e =>
    intro l hl
    rcases List.mem_singleton.mp hl with rfl
    exact lineSkipKey_keyed "nostr_event_id" _ k (by decide) h

/-- The relay block is skipped for any keyword key. -/
theorem skip_relB (p : BlogPost) (k : Str)
    (h : rustTrim (str "published_relays") ≠ k) (hd : ∀ z : Str, '-' :: z ≠ k) :
    ∀ l ∈ (if p.published_relays.isEmpty then ([] : List Str)
      else str "published_relays:" :: p.published_relays.map (fun r => dashLine r)),
      lineSkipKey k l := by
  cases hpr : p.published_relays.isEmpty
  · simp only [Bool.false_eq_true, if_false]
    intro l hl
    rcases List.mem_cons.mp hl with rfl | hl
    · exact lineSkipKey_colon (str "published_relays") [] k (by decide) h
    · obtain ⟨r, _, rfl⟩ := List.mem_map.mp hl
      exact lineSkipKey_dash _ k hd
  · intro l hl
    simp at hl

/-- A list is a `isPrefixOf`-prefix of itself followed by anything. -/
theorem isPrefixOf_self_append (a b : Str) : a.isPrefixOf (a ++ b) = true := by
  rw [List.isPrefixOf_iff_prefix]
  exact List.prefix_append a b

/-- C1 (amended): serializing a post whose text fields contain no
newline, whose title, image and nostr event id contain no double quote,
and whose id is canonical UUID text, then parsing the result back,
preserves the title, id, status, image reference and nostr event id —
but the tags come back empty and both timestamps are reset to the
parse-time clock, so the original claim's tag and timestamp equalities
do not survive the round trip. -/
theorem roundtrip_preserved_c1 (p : BlogPost) (fp : Option Str)
    (freshId : Str) (now : Int)
    (ht1 : '\n' ∉ p.title) (ht2 : '"' ∉ p.title)
    (hid : isCanonicalUuid p.id = true)
    (hsum : ∀ s, p.summary = some s → '\n' ∉ s)
    (htags : ∀ t ∈ p.tags, '\n' ∉ t)
    (himg : ∀ u, p.image_url = some u → '\n' ∉ u ∧ '"' ∉ u)
    (hnid : ∀ e, p.nostr_event_id = some e → '\n' ∉ e ∧ '"' ∉ e)
    (hrel : ∀ r ∈ p.published_relays, '\n' ∉ r) :
    ∃ q, fromMarkdownWithFrontmatter (toMarkdownWithFrontmatter p) fp freshId now =
        .ok q ∧
      q.title = p.title ∧ q.id = p.id ∧ q.status = p.status ∧
      q.image_url = p.image_url ∧ q.nostr_event_id = p.nostr_event_id ∧
      q.tags = [] ∧ q.created_at = now ∧ q.updated_at = now := by
  have hok4 := fmLines_ok p ht1 hid hsum htags (fun u hu => (himg u hu).1)
    (fun e he => (hnid e he).1) hrel
  have hne : fmLines p ≠ [] := by
    unfold fmLines
    simp
  have hfind := findSub_joinNL (fmLines p) p.content
    (fun l hl => ⟨(hok4 l hl).1, (hok4 l hl).2.1, (hok4 l hl).2.2.1⟩) hne
  have hpre := isPrefixOf_self_append (str "---\n")
    (joinNL (fmLines p) ++ (str "---\n\n" ++ p.content))
  have hdrop : (str "---\n" ++ (joinNL (fmLines p) ++ (str "---\n\n" ++ p.content))).drop 4 =
      joinNL (fmLines p) ++ (str "---\n\n" ++ p.content) := by
    rw [show (4 : Nat) = (str "---\n").length from by decide]
    exact List.drop_left _ _
  have htake : (joinNL (fmLines p) ++ (str "---\n\n" ++ p.content)).take
      ((joinNL (fmLines p)).length - 1) = (joinNL (fmLines p)).dropLast := by
    rw [List.take_append_eq_append_take,
      show (joinNL (fmLines p)).length - 1 - (joinNL (fmLines p)).length = 0 from by omega,
      List.take_zero, List.append_nil]
    exact (List.dropLast_eq_take _).symm
  have hlines := rustLines_joinNL (fmLines p) hne
    (fun l hl => ⟨(hok4 l hl).1, (hok4 l hl).2.1, (hok4 l hl).2.2.2⟩)
  have hparse : ∃ C : Str,
      fromMarkdownWithFrontmatter (toMarkdownWithFrontmatter p) fp freshId now =
        .ok (List.foldl processLine
          { defaultPost freshId now with file_path := fp, content := C }
          (fmLines p)) := by
    refine ⟨(str "---\n" ++ (joinNL (fmLines p) ++ (str "---\n\n" ++ p.content))).drop
      ((List.length (joinNL (fmLines p)) - 1) + 8), ?_⟩
    rw [toMarkdown_shape p]
    unfold fromMarkdownWithFrontmatter
    rw [if_pos hpre, hdrop, hfind]
    simp only [htake, hlines]
  obtain ⟨C, hC⟩ := hparse
  refine ⟨_, hC, ?_, ?_, ?_, ?_, ?_, ?_, ?_, ?_⟩
  · -- title
    simp only [fmLines, List.foldl_append, List.foldl_cons, List.foldl_nil]
    rw [foldl_title_frame _ (skip_relB p (str "title") (by decide)
        (cons_ne_of_head '-' "title" (by decide))),
      foldl_title_frame _ (skip_nidB p (str "title") (by decide)),
      foldl_title_frame _ (skip_imgB p (str "title") (by decide)),
      foldl_title_frame _ (skip_tagB p (str "title") (by decide)
        (cons_ne_of_head '-' "title" (by decide))),
      foldl_title_frame _ (skip_sumB p (str "title") (by decide))]
    rw [show ∀ q, (processLine q (keyedLine "status" (statusDebug p.status))).title = q.title
        from fun q => processLine_title_frame q _
          (lineSkipKey_keyed "status" _ _ (by decide) (by decide)),
      show ∀ q, (processLine q (keyedLine "updated_at" (rfc3339OfUnix p.updated_at))).title = q.title
        from fun q => processLine_title_frame q _
          (lineSkipKey_keyed "updated_at" _ _ (by decide) (by decide)),
      show ∀ q, (processLine q (keyedLine "created_at" (rfc3339OfUnix p.created_at))).title = q.title
        from fun q => processLine_title_frame q _
          (lineSkipKey_keyed "created_at" _ _ (by decide) (by decide)),
      show ∀ q, (processLine q (keyedLine "id" p.id)).title = q.title
        from fun q => processLine_title_frame q _
          (lineSkipKey_keyed "id" _ _ (by decide) (by decide))]
    rw [escapeQuotes_eq_self p.title ht2, processLine_title _ p.title ht2]
  · -- id
    simp only [fmLines, List.foldl_append, List.foldl_cons, List.foldl_nil]
    rw [foldl_id_frame _ (skip_relB p (str "id") (by decide)
        (cons_ne_of_head '-' "id" (by decide))),
      foldl_id_frame _ (skip_nidB p (str "id") (by decide)),
      foldl_id_frame _ (skip_imgB p (str "id") (by decide)),
      foldl_id_frame _ (skip_tagB p (str "id") (by decide)
        (cons_ne_of_head '-' "id" (by decide))),
      foldl_id_frame _ (skip_sumB p (str "id") (by decide))]
    rw [show ∀ q, (processLine q (keyedLine "status" (statusDebug p.status))).id = q.id
        from fun q => processLine_id_frame q _
          (lineSkipKey_keyed "status" _ _ (by decide) (by decide)),
      show ∀ q, (processLine q (keyedLine "updated_at" (rfc3339OfUnix p.updated_at))).id = q.id
        from fun q => processLine_id_frame q _
          (lineSkipKey_keyed "updated_at" _ _ (by decide) (by decide)),
      show ∀ q, (processLine q (keyedLine "created_at" (rfc3339OfUnix p.created_at))).id = q.id
        from fun q => processLine_id_frame q _
          (lineSkipKey_keyed "created_at" _ _ (by decide) (by decide))]
    rw [processLine_id _ p.id hid (uuid_chars p.id hid).1]
  · -- status
    simp only [fmLines, List.foldl_append, List.foldl_cons, List.foldl_nil]
    rw [foldl_status_frame _ (skip_relB p (str "status") (by decide)
        (cons_ne_of_head '-' "status" (by decide))),
      foldl_status_frame _ (skip_nidB p (str "status") (by decide)),
      foldl_status_frame _ (skip_imgB p (str "status") (by decide)),
      foldl_status_frame _ (skip_tagB p (str "status") (by decide)
        (cons_ne_of_head '-' "status" (by decide))),
      foldl_status_frame _ (skip_sumB p (str "status") (by decide))]
    rw [processLine_status _ p.status]
  · -- image_url
    cases hiu : p.image_url with
    | none =>
      simp only [fmLines, hiu, List.foldl_append, List.foldl_cons, List.foldl_nil]
      rw [foldl_image_frame _ (skip_relB p (str "image") (by decide)
          (cons_ne_of_head '-' "image" (by decide))),
        foldl_image_frame _ (skip_nidB p (str "image") (by decide)),
        foldl_image_frame _ (skip_tagB p (str "image") (by decide)
          (cons_ne_of_head '-' "image" (by decide))),
        foldl_image_frame _ (skip_sumB p (str "image") (by decide))]
      rw [show ∀ q, (processLine q (keyedLine "status" (statusDebug p.status))).image_url = q.image_url
          from fun q => processLine_image_frame q _
            (lineSkipKey_keyed "status" _ _ (by decide) (by decide)),
        show ∀ q, (processLine q (keyedLine "updated_at" (rfc3339OfUnix p.updated_at))).image_url = q.image_url
          from fun q => processLine_image_frame q _
            (lineSkipKey_keyed "updated_at" _ _ (by decide) (by decide)),
        show ∀ q, (processLine q (keyedLine "created_at" (rfc3339OfUnix p.created_at))).image_url = q.image_url
          from fun q => processLine_image_frame q _
            (lineSkipKey_keyed "created_at" _ _ (by decide) (by decide)),
        show ∀ q, (processLine q (keyedLine "id" p.id)).image_url = q.image_url
          from fun q => processLine_image_frame q _
            (lineSkipKey_keyed "id" _ _ (by decide) (by decide)),
        show ∀ q, (processLine q (keyedLine "title" (escapeQuotes p.title))).image_url = q.image_url
          from fun q => processLine_image_frame q _
            (lineSkipKey_keyed "title" _ _ (by decide) (by decide))]
      rfl
    | some u =>
      simp only [fmLines, hiu, List.foldl_append, List.foldl_cons, List.foldl_nil]
      rw [foldl_image_frame _ (skip_relB p (str "image") (by decide)
          (cons_ne_of_head '-' "image" (by decide))),
        foldl_image_frame _ (skip_nidB p (str "image") (by decide)),
        processLine_image _ u (himg u hiu).2]
  · -- nostr_event_id
    cases hni : p.nostr_event_id with
    | none =>
      simp only [fmLines, hni, List.foldl_append, List.foldl_cons, List.foldl_nil]
      rw [foldl_nostr_frame _ (skip_relB p (str "nostr_event_id") (by decide)
          (cons_ne_of_head '-' "nostr_event_id" (by decide))),
        foldl_nostr_frame _ (skip_imgB p (str "nostr_event_id") (by decide)),
        foldl_nostr_frame _ (skip_tagB p (str "nostr_event_id") (by decide)
          (cons_ne_of_head '-' "nostr_event_id" (by decide))),
        foldl_nostr_frame _ (skip_sumB p (str "nostr_event_id") (by decide))]
      rw [show ∀ q, (processLine q (keyedLine "status" (statusDebug p.status))).nostr_event_id = q.nostr_event_id
          from fun q => processLine_nostr_frame q _
            (lineSkipKey_keyed "status" _ _ (by decide) (by decide)),
        show ∀ q, (processLine q (keyedLine "updated_at" (rfc3339OfUnix p.updated_at))).nostr_event_id = q.nostr_event_id
          from fun q => processLine_nostr_frame q _
            (lineSkipKey_keyed "updated_at" _ _ (by decide) (by decide)),
        show ∀ q, (processLine q (keyedLine "created_at" (rfc3339OfUnix p.created_at))).nostr_event_id = q.nostr_event_id
          from fun q => processLine_nostr_frame q _
            (lineSkipKey_keyed "created_at" _ _ (by decide) (by decide)),
        show ∀ q, (processLine q (keyedLine "id" p.id)).nostr_event_id = q.nostr_event_id
          from fun q => processLine_nostr_frame q _
            (lineSkipKey_keyed "id" _ _ (by decide) (by decide)),
        show ∀ q, (processLine q (keyedLine "title" (escapeQuotes p.title))).nostr_event_id = q.nostr_event_id
          from fun q => processLine_nostr_frame q _
            (lineSkipKey_keyed "title" _ _ (by decide) (by decide))]
      rfl
    | some e =>
      simp only [fmLines, hni, List.foldl_append, List.foldl_cons, List.foldl_nil]
      rw [foldl_nostr_frame _ (skip_relB p (str "nostr_event_id") (by decide)
          (cons_ne_of_head '-' "nostr_event_id" (by decide))),
        processLine_nostr _ e (hnid e hni).2]
  · exact ((foldl_rest (fmLines p) _).1).trans rfl
  · exact ((foldl_rest (fmLines p) _).2.1).trans rfl
  · exact ((foldl_rest (fmLines p) _).2.2.1).trans rfl

/-- C1 witness: the amended round trip at a concrete post exercising
every optional field. -/
theorem roundtrip_preserved_c1_witness :
    ∃ q, fromMarkdownWithFrontmatter (toMarkdownWithFrontmatter c1nicePost)
        none uuidB 0 = .ok q ∧
      q.title = c1nicePost.title ∧ q.id = c1nicePost.id ∧
      q.status = c1nicePost.status ∧ q.image_url = c1nicePost.image_url ∧
      q.nostr_event_id = c1nicePost.nostr_event_id ∧
      q.tags = [] ∧ q.created_at = 0 ∧ q.updated_at = 0 :=
  roundtrip_preserved_c1 c1nicePost none uuidB 0 (by decide) (by decide) (by decide)
    (by intro s hs; cases hs; decide) (by decide)
    (by intro u hu; cases hu; exact ⟨by decide, by decide⟩)
    (by intro e he; cases he; exact ⟨by decide, by decide⟩)
    (by decide)

set_option maxRecDepth 40000 in
set_option maxHeartbeats 1000000 in
/-- C1 counterexample: for the concrete post `c1post` — title `a"b`,
one tag `x`, creation time 100 — parsing the serialization yields an
escaped title `a\"b`, an empty tag list, and timestamps reset to the
parse-time clock 0, so the claimed equality of title, tags and
timestamps fails. -/
theorem roundtrip_counterexample_c1 :
    ((fromMarkdownWithFrontmatter (toMarkdownWithFrontmatter c1post)
        none uuidB 0).toOption.map
      (fun q => (q.title, q.tags, q.created_at, q.updated_at))) =
      some (str "a\\\"b", [], 0, 0) ∧
    c1post.title = str "a\"b" ∧ str "a\\\"b" ≠ str "a\"b" ∧
    str "x" ∈ c1post.tags ∧ c1post.created_at = 100 := by decide

end Blogster
